import Mathlib

/-!
Verification of the `trytond-gift-card` module (files `gift_card.py` and
`sale.py`) against its natural-language specification.

The module is a thin extension of the Tryton ERP framework.  Its own code
(the authority for this development) is shallowly embedded below: records
become Lean structures, the database becomes an explicit `DB` value that is
threaded through every operation, `Decimal` amounts become `ℚ`, and fallible
operations (user errors, SQL constraint violations) return `Except String`.
Framework services that the module merely configures (generic record
creation with defaults, the SQL `UNIQUE` constraint, the workflow transition
engine, the numbering sequence) are not part of the repository; they are
modelled from the specification's description of them and are marked
`Modelled from the spec:` in their doc comments.
-/

namespace GiftCardSpec

/-- Lifecycle states of a gift card, from the `state` Selection field
declared in `GiftCard` (`gift_card.py`): draft, active, canceled, used. -/
inductive GCState where
  | draft
  | active
  | canceled
  | used
deriving DecidableEq

/-- The `state` selection list of `GiftCard.state` exactly as declared:
four `(value, label)` pairs. -/
def stateSelection : List (GCState × String) :=
  [(GCState.draft, "Draft"), (GCState.active, "Active"),
   (GCState.canceled, "Canceled"), (GCState.used, "Used")]

/-- A `payment_gateway.transaction` record, reduced to the fields this
module reads: `amount`, `state` and the `gift_card` reference that backs
the `payment_transactions` One2Many. -/
structure PaymentTransaction where
  id : Nat
  amount : ℚ
  state : String
  gift_card : Option Nat
deriving DecidableEq

/-- A stored `gift_card.gift_card` record with the fields declared in
`GiftCard` (`payment_transactions` is a One2Many and is derived from the
transaction table, `amount_*` are Function fields computed by
`get_amount`). -/
structure GiftCard where
  id : Nat
  number : String
  currency : Nat
  amount : ℚ
  state : GCState
  sale_line : Option Nat
  message : Option String
deriving DecidableEq

/-- The persistent state threaded through every operation: the gift card
table, the payment transaction table, fresh-id counters for both tables,
the state of the configured `ir.sequence` used for gift card numbers, and
the company currency used by `default_currency`. -/
structure DB where
  gift_cards : List GiftCard
  transactions : List PaymentTransaction
  nextId : Nat
  nextTxnId : Nat
  nextSeq : Nat
  company_currency : Nat
deriving DecidableEq

/-- A condition of a Tryton search domain over payment transactions, as
used by `GiftCard.get_amount`: `('state', '=', s)` or
`('gift_card', '=', g)`. -/
inductive TxnCond where
  | stateEq (s : String)
  | giftCardEq (g : Nat)
deriving DecidableEq

/-- Evaluation of one domain condition on a transaction record. -/
def TxnCond.holds : TxnCond → PaymentTransaction → Bool
  | .stateEq s, t => decide (t.state = s)
  | .giftCardEq g, t => decide (t.gift_card = some g)

/-- Modelled from the spec: `PaymentTransaction.search` (a framework query
service, not part of this repository) returns the transactions satisfying
every condition of the domain. -/
def searchTransactions (db : DB) (domain : List TxnCond) : List PaymentTransaction :=
  db.transactions.filter (fun t => domain.all (fun cond => cond.holds t))

/-- `GiftCard.get_amount` for `name = 'amount_authorized'`: the sum of the
amounts of the transactions found by
`search([('state', '=', 'authorized'), ('gift_card', '=', self.id)])`. -/
def GiftCard.amount_authorized (db : DB) (self : GiftCard) : ℚ :=
  ((searchTransactions db
      [TxnCond.stateEq "authorized", TxnCond.giftCardEq self.id]).map
    (fun t => t.amount)).sum

/-- `GiftCard.get_amount` for `name = 'amount_captured'`: the sum of the
amounts of the transactions found by
`search([('state', '=', 'posted'), ('gift_card', '=', self.id)])`. -/
def GiftCard.amount_captured (db : DB) (self : GiftCard) : ℚ :=
  ((searchTransactions db
      [TxnCond.stateEq "posted", TxnCond.giftCardEq self.id]).map
    (fun t => t.amount)).sum

/-- `GiftCard.get_amount` for `name = 'amount_available'`:
`self.amount - self.amount_authorized - self.amount_captured` (the two
Function fields are themselves computed by `get_amount`). -/
def GiftCard.amount_available (db : DB) (self : GiftCard) : ℚ :=
  self.amount - GiftCard.amount_authorized db self - GiftCard.amount_captured db self

/-- `GiftCard.get_amount` itself: dispatch on the requested field name; a
name other than the three Function fields falls off the end of the Python
function and returns `None`. -/
def GiftCard.get_amount (db : DB) (self : GiftCard) (name : String) : Option ℚ :=
  if name = "amount_authorized" then some (GiftCard.amount_authorized db self)
  else if name = "amount_captured" then some (GiftCard.amount_captured db self)
  else if name = "amount_available" then some (GiftCard.amount_available db self)
  else none

/-- `GiftCard.default_state`: the default value of the `state` field. -/
def GiftCard.default_state : GCState := GCState.draft

/-- The `_sql_constraints` declared in `GiftCard.__setup__`:
`(name, sql, error message)` triples. -/
def sqlConstraints : List (String × String × String) :=
  [("number_uniq", "UNIQUE(number)", "The number of the gift card must be unique.")]

/-- The declared invariant of the single SQL constraint: all gift card
numbers in the table are pairwise distinct. -/
def uniqueNumbers (db : DB) : Prop :=
  (db.gift_cards.map (fun c => c.number)).Nodup

instance (db : DB) : Decidable (uniqueNumbers db) := by
  unfold uniqueNumbers
  infer_instance

/-- A values dictionary passed to `GiftCard.create`; an absent key is
`none`. -/
structure GiftCardVals where
  number : Option String := none
  currency : Option Nat := none
  amount : Option ℚ := none
  state : Option GCState := none
  sale_line : Option Nat := none
  message : Option String := none
deriving DecidableEq

/-- Python truthiness of `values.get('number')`: absent, `None` or the
empty string are falsy. -/
def numberFalsy : Option String → Bool
  | none => true
  | some s => s.isEmpty

/-- The loop of `GiftCard.create`: each values dictionary whose `number`
is falsy gets `Sequence.get_id(Configuration(1).number_sequence.id)`.
Modelled from the spec: the framework numbering-sequence service
(`ir.sequence`, not part of this repository) hands out the decimal
rendering of a counter and increments it. -/
def assignNumbers : List GiftCardVals → Nat → List GiftCardVals × Nat
  | [], seq => ([], seq)
  | v :: rest, seq =>
    if numberFalsy v.number then
      let r := assignNumbers rest (seq + 1)
      ({ v with number := some (toString seq) } :: r.1, r.2)
    else
      let r := assignNumbers rest seq
      (v :: r.1, r.2)

/-- Modelled from the spec: the framework's generic record construction
(`ModelSQL.create`, not part of this repository) builds a record from a
values dictionary, filling absent fields with their declared defaults
(`default_state`, `default_currency`). -/
def mkCard (nid : Nat) (cur : Nat) (v : GiftCardVals) : GiftCard :=
  { id := nid
    number := v.number.getD ""
    currency := v.currency.getD cur
    amount := v.amount.getD 0
    state := v.state.getD GiftCard.default_state
    sale_line := v.sale_line
    message := v.message }

/-- The records built for a values list, with consecutive fresh ids. -/
def mkCards (nid : Nat) (cur : Nat) : List GiftCardVals → List GiftCard
  | [] => []
  | v :: rest => mkCard nid cur v :: mkCards (nid + 1) cur rest

/-- Modelled from the spec: the framework insert loop of the generic
`create` (not part of this repository): append one record per values
dictionary, handing out consecutive ids. -/
def insertAll (db : DB) : List GiftCardVals → DB × List Nat
  | [] => (db, [])
  | v :: rest =>
    let c := mkCard db.nextId db.company_currency v
    let db2 := { db with gift_cards := db.gift_cards ++ [c], nextId := db.nextId + 1 }
    let r := insertAll db2 rest
    (r.1, c.id :: r.2)

/-- Modelled from the spec: `super(GiftCard, cls).create` together with the
database's enforcement of the declared `UNIQUE(number)` SQL constraint
(both supplied by the framework and the database, not by this repository):
insert the records, then fail with the constraint's error message unless
all numbers in the table are distinct. -/
def superCreate (db : DB) (vlist : List GiftCardVals) : Except String (DB × List Nat) :=
  if uniqueNumbers (insertAll db vlist).1 then Except.ok (insertAll db vlist)
  else Except.error "The number of the gift card must be unique."

/-- `GiftCard.create`: copy the values dictionaries, assign numbers from
the configured sequence to those whose `number` is falsy, then call the
framework `create`. -/
def GiftCard.create (db : DB) (vlist : List GiftCardVals) : Except String (DB × List Nat) :=
  superCreate { db with nextSeq := (assignNumbers vlist db.nextSeq).2 }
    (assignNumbers vlist db.nextSeq).1

/-- The records a successful `GiftCard.create db vlist` appends to the
gift card table. -/
def createdCards (db : DB) (vlist : List GiftCardVals) : List GiftCard :=
  mkCards db.nextId db.company_currency (assignNumbers vlist db.nextSeq).1

/-- The `_transitions` set declared in `GiftCard.__setup__`: the four
allowed `(from-state, to-state)` pairs. -/
def allowedTransitions : List (GCState × GCState) :=
  [(GCState.draft, GCState.active), (GCState.active, GCState.canceled),
   (GCState.draft, GCState.canceled), (GCState.canceled, GCState.draft)]

/-- Modelled from the spec: the per-record behaviour of the framework's
`Workflow.transition` decorator (not part of this repository): a selected
record moves to the target state when its current `(state, target)` pair is
in the declared transition set, and is left untouched otherwise. -/
def transitionFun (target : GCState) (ids : List Nat) (c : GiftCard) : GiftCard :=
  if c.id ∈ ids ∧ (c.state, target) ∈ allowedTransitions then
    { c with state := target }
  else c

/-- Modelled from the spec: a workflow transition applied to a set of
records, writing the new state of each allowed record back to the table. -/
def workflowTransition (target : GCState) (ids : List Nat) (db : DB) : DB :=
  { db with gift_cards := db.gift_cards.map (transitionFun target ids) }

/-- `GiftCard.activate`: the button decorated with
`Workflow.transition('active')`. -/
def GiftCard.activate (ids : List Nat) (db : DB) : DB :=
  workflowTransition GCState.active ids db

/-- `GiftCard.draft`: the button decorated with
`Workflow.transition('draft')`. -/
def GiftCard.draftButton (ids : List Nat) (db : DB) : DB :=
  workflowTransition GCState.draft ids db

/-- `GiftCard.cancel`: the button decorated with
`Workflow.transition('canceled')`. -/
def GiftCard.cancel (ids : List Nat) (db : DB) : DB :=
  workflowTransition GCState.canceled ids db

/-- The three workflow buttons declared on `GiftCard`. -/
inductive Button where
  | activateBtn
  | draftBtn
  | cancelBtn
deriving DecidableEq

/-- Dispatch a button press to its transition. -/
def applyButton : Button → List Nat → DB → DB
  | Button.activateBtn, ids, db => GiftCard.activate ids db
  | Button.draftBtn, ids, db => GiftCard.draftButton ids db
  | Button.cancelBtn, ids, db => GiftCard.cancel ids db

/-- The guard loop of `GiftCard.delete`: raise `deletion_not_allowed` at
the first gift card in the `active` state. -/
def checkDeletable : List GiftCard → Except String Unit
  | [] => Except.ok ()
  | c :: rest =>
    if c.state = GCState.active then Except.error "deletion_not_allowed"
    else checkDeletable rest

/-- `GiftCard.delete`: refuse when any selected card is active, otherwise
remove the selected records (the removal itself is the framework's generic
delete, modelled from the spec as dropping the rows). -/
def GiftCard.delete (db : DB) (ids : List Nat) : Except String DB :=
  match checkDeletable (db.gift_cards.filter (fun c => c.id ∈ ids)) with
  | Except.error e => Except.error e
  | Except.ok _ =>
      Except.ok { db with gift_cards := db.gift_cards.filter (fun c => ¬ c.id ∈ ids) }

/-- A `default` dictionary passed to `GiftCard.copy`: for each field, an
optional override used instead of the original record's value.  For
`payment_transactions` (a One2Many) the override is the list of
`(amount, state)` transaction values to create on each copy; an absent key
duplicates the original's transactions. -/
structure CopyDefaults where
  number : Option (Option String) := none
  currency : Option Nat := none
  amount : Option ℚ := none
  state : Option GCState := none
  sale_line : Option (Option Nat) := none
  message : Option (Option String) := none
  payment_transactions : Option (List (ℚ × String)) := none
deriving DecidableEq

/-- Modelled from the spec: the values dictionary the framework's generic
`copy` builds for one original record: the default override where present,
the original's field value otherwise. -/
def valsFromCard (d : CopyDefaults) (c : GiftCard) : GiftCardVals :=
  { number := d.number.getD (some c.number)
    currency := some (d.currency.getD c.currency)
    amount := some (d.amount.getD c.amount)
    state := some (d.state.getD c.state)
    sale_line := d.sale_line.getD c.sale_line
    message := d.message.getD c.message }

/-- The `(amount, state)` pairs of the transactions to attach to the copy
of one original: the override when the `default` dictionary has the key,
the original's own transactions otherwise. -/
def copyTxnSpec (d : CopyDefaults) (db : DB) (origId : Nat) : List (ℚ × String) :=
  match d.payment_transactions with
  | some l => l
  | none =>
      (db.transactions.filter (fun t => t.gift_card = some origId)).map
        (fun t => (t.amount, t.state))

/-- Insert transaction records for a gift card, with fresh ids. -/
def addTxns (db : DB) (gc : Nat) : List (ℚ × String) → DB
  | [] => db
  | p :: rest =>
      addTxns
        { db with
            transactions :=
              db.transactions ++
                [{ id := db.nextTxnId, amount := p.1, state := p.2, gift_card := some gc }]
            nextTxnId := db.nextTxnId + 1 }
        gc rest

/-- Modelled from the spec: `super(GiftCard, cls).copy` (the framework's
generic copy, not part of this repository): build one values dictionary per
original record, create the records through `cls.create` (hence through the
overridden `GiftCard.create`), then attach the copied One2Many transaction
records. -/
def superCopy (db : DB) (cards : List GiftCard) (d : CopyDefaults) :
    Except String (DB × List Nat) :=
  match GiftCard.create db (cards.map (fun c => valsFromCard d c)) with
  | Except.error e => Except.error e
  | Except.ok r =>
      Except.ok
        ((List.zip cards r.2).foldl
          (fun acc p => addTxns acc p.2 (copyTxnSpec d db p.1.id)) r.1, r.2)

/-- `GiftCard.copy`: copy the caller's `default` dictionary (or start from
an empty one), force `number` and `sale_line` to `None`, `state` to
`default_state()` and `payment_transactions` to empty, then call the
framework copy. -/
def GiftCard.copy (db : DB) (cards : List GiftCard) (default : Option CopyDefaults) :
    Except String (DB × List Nat) :=
  superCopy db cards
    { default.getD {} with
        number := some none
        sale_line := some none
        state := some GiftCard.default_state
        payment_transactions := some [] }

/-- An `account.invoice.line` record, reduced to the fields
`SaleLine.get_invoice_line` writes. -/
structure InvoiceLine where
  lineType : String
  description : String
  note : Option String
  origin : Option Nat
  account : Option Nat
  unit_price : ℚ
  quantity : ℚ
deriving DecidableEq

/-- The `gift_card.configuration` singleton (`Configuration(1)`), reduced
to the field this module reads: the liability account (absent when not
configured). -/
structure Configuration where
  liability_account : Option Nat := none
deriving DecidableEq

/-- A `sale.line` record with the fields this module declares
(`is_gift_card`, `message`; `gift_cards` is a One2Many derived from the
gift card table) and the base-module fields it reads (`quantity`,
`unit_price`, `amount`, `type`, `description`, `note`,
`invoice_lines`). -/
structure SaleLine where
  id : Nat
  is_gift_card : Bool
  quantity : ℚ
  unit_price : ℚ
  amount : ℚ
  lineType : String
  description : String
  note : Option String
  message : Option String
  invoice_lines : List InvoiceLine
deriving DecidableEq

/-- The `gift_cards` One2Many of a sale line: the gift cards whose
`sale_line` points at it. -/
def SaleLine.gift_cards (db : DB) (l : SaleLine) : List GiftCard :=
  db.gift_cards.filter (fun c => decide (c.sale_line = some l.id))

/-- `SaleLine.get_invoice_line`: delegate to the base implementation
(passed in as `superResult`, since the base sale module is not part of this
repository) unless the line is a gift card sold on a customer invoice;
return nothing when already invoiced; otherwise build one invoice line on
the configured liability account, raising a user error when that account is
missing. -/
def SaleLine.get_invoice_line (cfg : Configuration) (superResult : List InvoiceLine)
    (self : SaleLine) (invoice_type : String) : Except String (List InvoiceLine) :=
  if ¬ self.is_gift_card ∨ invoice_type ≠ "out_invoice" then
    Except.ok superResult
  else if ¬ self.invoice_lines.isEmpty then
    Except.ok []
  else
    let invoice_line : InvoiceLine :=
      { lineType := self.lineType
        description := self.description
        note := self.note
        origin := some self.id
        account := cfg.liability_account
        unit_price := self.unit_price
        quantity := self.quantity }
    if invoice_line.account.isNone then
      Except.error "Liability Account is missing from Gift Card Configuration"
    else
      Except.ok [invoice_line]

/-- Python's `int()` applied to a rational `quantity`: truncation toward
zero. -/
def pyInt (q : ℚ) : Int := Int.tdiv q.num q.den

/-- `SaleLine.create_gift_cards`: return `None` for a non-gift-card line or
a line that already has gift cards; otherwise create
`range(0, int(quantity))` gift cards carrying the line's `amount`,
`message` and a `sale_line` link, and immediately activate them.  A raised
error (the unique-number constraint) propagates. -/
def SaleLine.create_gift_cards (db : DB) (l : SaleLine) :
    Except String (DB × Option (List Nat)) :=
  if ¬ l.is_gift_card then Except.ok (db, none)
  else if ¬ (SaleLine.gift_cards db l).isEmpty then Except.ok (db, none)
  else
    let vlist : List GiftCardVals :=
      List.replicate (pyInt l.quantity).toNat
        { amount := some l.amount, sale_line := some l.id, message := l.message }
    match GiftCard.create db vlist with
    | Except.error e => Except.error e
    | Except.ok r => Except.ok (GiftCard.activate r.2 r.1, some r.2)

/-- A `sale.sale` record: its workflow state and its lines. -/
structure Sale where
  id : Nat
  state : String
  lines : List SaleLine
deriving DecidableEq

/-- The loop of `Sale.create_gift_cards` over the gift-card lines. -/
def processLines (db : DB) : List SaleLine → Except String DB
  | [] => Except.ok db
  | l :: rest =>
    match SaleLine.create_gift_cards db l with
    | Except.error e => Except.error e
    | Except.ok r => processLines r.1 rest

/-- `Sale.create_gift_cards`: call `create_gift_cards` on every line with
`is_gift_card` set. -/
def Sale.create_gift_cards (db : DB) (s : Sale) : Except String DB :=
  processLines db (s.lines.filter (fun l => l.is_gift_card))

/-- The loop of `Sale.process` after `super().process(sales)`: for each
sale whose (post-`super`) state is `confirmed`, `processing` or `done`,
create its gift cards. -/
def processSales (db : DB) : List Sale → Except String DB
  | [] => Except.ok db
  | s :: rest =>
    if s.state = "confirmed" ∨ s.state = "processing" ∨ s.state = "done" then
      match Sale.create_gift_cards db s with
      | Except.error e => Except.error e
      | Except.ok db2 => processSales db2 rest
    else processSales db rest

/-- `Sale.process`.  `super(Sale, cls).process(sales)` is the base sale
workflow (not part of this repository); it only advances the sales' own
states, so the embedding takes the sales with their post-`super` states and
runs the module's loop over them. -/
def Sale.process (db : DB) (sales : List Sale) : Except String DB :=
  processSales db sales

/-- The gift card operations of the module, for invariant-preservation
statements quantified over every operation. -/
inductive Op where
  | createOp (vlist : List GiftCardVals)
  | copyOp (ids : List Nat) (default : Option CopyDefaults)
  | deleteOp (ids : List Nat)
  | activateOp (ids : List Nat)
  | draftOp (ids : List Nat)
  | cancelOp (ids : List Nat)

/-- Run one gift card operation against the database. -/
def applyOp (db : DB) : Op → Except String DB
  | Op.createOp vlist =>
      match GiftCard.create db vlist with
      | Except.error e => Except.error e
      | Except.ok r => Except.ok r.1
  | Op.copyOp ids d =>
      match GiftCard.copy db (db.gift_cards.filter (fun c => c.id ∈ ids)) d with
      | Except.error e => Except.error e
      | Except.ok r => Except.ok r.1
  | Op.deleteOp ids => GiftCard.delete db ids
  | Op.activateOp ids => Except.ok (GiftCard.activate ids db)
  | Op.draftOp ids => Except.ok (GiftCard.draftButton ids db)
  | Op.cancelOp ids => Except.ok (GiftCard.cancel ids db)

/-- The `(amount, message)` view of the gift cards attached to a sale
line; the statements about issuance track this view through the folds. -/
def lineCardData (db : DB) (l : SaleLine) : List (ℚ × Option String) :=
  (SaleLine.gift_cards db l).map (fun c => (c.amount, c.message))

/-- An empty database used as a concrete scenario: no records, sequence
counter at 1, company currency 9. -/
def cexDB0 : DB :=
  { gift_cards := []
    transactions := []
    nextId := 0
    nextTxnId := 0
    nextSeq := 1
    company_currency := 9 }

/-- A gift-card sale line for two gift cards of 10 with a message. -/
def cexLine2 : SaleLine :=
  { id := 7
    is_gift_card := true
    quantity := 2
    unit_price := 5
    amount := 10
    lineType := "line"
    description := "Gift Card"
    note := none
    message := some "happy"
    invoice_lines := [] }

/-- A sale in state `processing` holding `cexLine2`. -/
def cexSale2 : Sale :=
  { id := 1
    state := "processing"
    lines := [cexLine2] }

/-- The database produced by processing `cexSale2` against `cexDB0`: two
activated gift cards numbered from the sequence, linked to the line. -/
def cexProcessed : DB :=
  { gift_cards :=
      [{ id := 0
         number := "1"
         currency := 9
         amount := 10
         state := GCState.active
         sale_line := some 7
         message := some "happy" },
       { id := 1
         number := "2"
         currency := 9
         amount := 10
         state := GCState.active
         sale_line := some 7
         message := some "happy" }]
    transactions := []
    nextId := 2
    nextTxnId := 0
    nextSeq := 3
    company_currency := 9 }

/-- A gift-card sale line with the negative quantity `-1`. -/
def cexLineNeg : SaleLine :=
  { id := 5
    is_gift_card := true
    quantity := -1
    unit_price := 4
    amount := 4
    lineType := "line"
    description := "Gift Card"
    note := none
    message := none
    invoice_lines := [] }

/-- A sale in state `done` holding `cexLineNeg`. -/
def cexSaleNeg : Sale :=
  { id := 2
    state := "done"
    lines := [cexLineNeg] }

/-- A default gift card record used only as the `getD` fallback in
statements that index into lists. -/
def dummyCard : GiftCard :=
  { id := 0
    number := ""
    currency := 0
    amount := 0
    state := GCState.draft
    sale_line := none
    message := none }

/-- A values dictionary with every key absent. -/
def emptyVals : GiftCardVals := {}

/-- A copy `default` dictionary with every key absent. -/
def emptyDefaults : CopyDefaults := {}

/-- The `i`-th record a copy operation appended to the gift card table:
the result's table beyond the original table's length. -/
def copiedCard (r : DB × List Nat) (db : DB) (i : Nat) : GiftCard :=
  (r.1.gift_cards.drop db.gift_cards.length).getD i dummyCard

/-- A values dictionary carrying an explicit non-empty number. -/
def cexValsProvided : GiftCardVals :=
  { number := some "Z"
    amount := some 3 }

/-- The result of `GiftCard.create cexDB0 [cexValsProvided, emptyVals]`:
the provided number is kept, the blank one is assigned from the
sequence. -/
def cexCreatedPair : DB × List Nat :=
  ({ gift_cards :=
      [{ id := 0
         number := "Z"
         currency := 9
         amount := 3
         state := GCState.draft
         sale_line := none
         message := none },
       { id := 1
         number := "1"
         currency := 9
         amount := 0
         state := GCState.draft
         sale_line := none
         message := none }]
     transactions := []
     nextId := 2
     nextTxnId := 0
     nextSeq := 2
     company_currency := 9 }, [0, 1])

/-- The result of `GiftCard.create cexDB0 [emptyVals]`. -/
def cexCreatedSingle : DB × List Nat :=
  ({ gift_cards :=
      [{ id := 0
         number := "1"
         currency := 9
         amount := 0
         state := GCState.draft
         sale_line := none
         message := none }]
     transactions := []
     nextId := 1
     nextTxnId := 0
     nextSeq := 2
     company_currency := 9 }, [0])

/-- The first gift card of `cexProcessed`. -/
def cexOrig : GiftCard :=
  { id := 0
    number := "1"
    currency := 9
    amount := 10
    state := GCState.active
    sale_line := some 7
    message := some "happy" }

/-- The result of `GiftCard.copy cexProcessed [cexOrig] none`: a fresh
number from the sequence, state back to draft, no sale line. -/
def cexCopyResult : DB × List Nat :=
  ({ gift_cards :=
      [{ id := 0
         number := "1"
         currency := 9
         amount := 10
         state := GCState.active
         sale_line := some 7
         message := some "happy" },
       { id := 1
         number := "2"
         currency := 9
         amount := 10
         state := GCState.active
         sale_line := some 7
         message := some "happy" },
       { id := 2
         number := "3"
         currency := 9
         amount := 10
         state := GCState.draft
         sale_line := none
         message := some "happy" }]
     transactions := []
     nextId := 3
     nextTxnId := 0
     nextSeq := 4
     company_currency := 9 }, [2])

/-- A gift card configuration with a liability account. -/
def cexConfig : Configuration := { liability_account := some 77 }

/-! ### Theorems -/

/-- C1.  For every gift card, `amount_authorized` is the sum of the amounts
of its associated payment-gateway transactions in state `'authorized'`,
`amount_captured` is the sum over its transactions in state `'posted'`, and
`amount_available` is `amount` minus `amount_authorized` minus
`amount_captured`.  The right-hand sides are written directly from the
claim (a plain filter of the transaction table on state and association),
the left-hand sides are the embedded `GiftCard.get_amount`. -/
theorem C1_get_amount_balances (db : DB) (c : GiftCard) :
    GiftCard.get_amount db c "amount_authorized" =
      some ((db.transactions.filter
        (fun t => decide (t.state = "authorized" ∧ t.gift_card = some c.id))).map
          (fun t => t.amount)).sum ∧
    GiftCard.get_amount db c "amount_captured" =
      some ((db.transactions.filter
        (fun t => decide (t.state = "posted" ∧ t.gift_card = some c.id))).map
          (fun t => t.amount)).sum ∧
    GiftCard.get_amount db c "amount_available" =
      some (c.amount
        - ((db.transactions.filter
            (fun t => decide (t.state = "authorized" ∧ t.gift_card = some c.id))).map
              (fun t => t.amount)).sum
        - ((db.transactions.filter
            (fun t => decide (t.state = "posted" ∧ t.gift_card = some c.id))).map
              (fun t => t.amount)).sum) := by
  have hdom : ∀ (s : String) (t : PaymentTransaction),
      ([TxnCond.stateEq s, TxnCond.giftCardEq c.id].all (fun cond => cond.holds t)) =
        decide (t.state = s ∧ t.gift_card = some c.id) := by
    intro s t
    simp [TxnCond.holds, List.all, decide_eq_true_eq]
  have hsearch : ∀ s : String,
      searchTransactions db [TxnCond.stateEq s, TxnCond.giftCardEq c.id] =
        db.transactions.filter
          (fun t => decide (t.state = s ∧ t.gift_card = some c.id)) := by
    intro s
    unfold searchTransactions
    exact List.filter_congr (fun t _ => hdom s t)
  refine ⟨?_, ?_, ?_⟩
  · simp [GiftCard.get_amount, GiftCard.amount_authorized, hsearch]
  · simp [GiftCard.get_amount, GiftCard.amount_captured, hsearch]
  · simp [GiftCard.get_amount, GiftCard.amount_available,
      GiftCard.amount_authorized, GiftCard.amount_captured, hsearch]



/-! ### Helper lemmas -/

theorem getD_mem_of_lt {α : Type} (l : List α) (i : Nat) (d : α) (h : i < l.length) :
    l.getD i d ∈ l := by
  induction l generalizing i with
  | nil => simp at h
  | cons a t ih =>
    cases i with
    | zero => simp [List.getD_cons_zero]
    | succ n =>
      simp only [List.getD_cons_succ]
      exact List.mem_cons_of_mem _ (ih _ (by simpa using h))

theorem getD_map_of_lt {α β : Type} (l : List α) (f : α → β) (i : Nat) (d : β) (d2 : α)
    (h : i < l.length) : (l.map f).getD i d = f (l.getD i d2) := by
  induction l generalizing i with
  | nil => simp at h
  | cons a t ih =>
    cases i with
    | zero => simp [List.getD_cons_zero]
    | succ n =>
      simp only [List.map_cons, List.getD_cons_succ]
      exact ih _ (by simpa using h)

theorem assign_length (vl : List GiftCardVals) (seq : Nat) :
    (assignNumbers vl seq).1.length = vl.length := by
  induction vl generalizing seq with
  | nil => rfl
  | cons v rest ih =>
    unfold assignNumbers
    by_cases hf : numberFalsy v.number
    · simp [hf, ih]
    · simp [hf, ih]

theorem assign_proj {α : Type} (f : GiftCardVals → α)
    (hf : ∀ (v : GiftCardVals) (s : String), f { v with number := some s } = f v)
    (vl : List GiftCardVals) (seq : Nat) :
    ((assignNumbers vl seq).1).map f = vl.map f := by
  induction vl generalizing seq with
  | nil => rfl
  | cons v rest ih =>
    unfold assignNumbers
    by_cases hfal : numberFalsy v.number
    · simp [hfal, ih, hf]
    · simp [hfal, ih]

theorem assign_getD (vl : List GiftCardVals) (seq : Nat) (i : Nat) (d : GiftCardVals)
    (h : i < vl.length) :
    (assignNumbers vl seq).1.getD i d =
      (if numberFalsy (vl.getD i d).number then
        { vl.getD i d with
            number := some (toString (seq +
              ((vl.take i).filter (fun w => numberFalsy w.number)).length)) }
      else vl.getD i d) := by
  induction vl generalizing seq i with
  | nil => simp at h
  | cons v rest ih =>
    cases i with
    | zero =>
      unfold assignNumbers
      by_cases hfal : numberFalsy v.number
      · simp [hfal, List.getD_cons_zero]
      · simp [hfal, List.getD_cons_zero]
    | succ n =>
      have hn : n < rest.length := by simpa using h
      have hstep : (assignNumbers (v :: rest) seq).1.getD (n + 1) d =
          (assignNumbers rest (seq + (if numberFalsy v.number then 1 else 0))).1.getD n d := by
        by_cases hfal : numberFalsy v.number
        · simp [assignNumbers, hfal, List.getD_cons_succ]
        · simp [assignNumbers, hfal, List.getD_cons_succ]
      rw [hstep, ih _ n hn]
      have hget : (v :: rest).getD (n + 1) d = rest.getD n d := List.getD_cons_succ
      have hcount : ((List.take (n + 1) (v :: rest)).filter
            (fun w => numberFalsy w.number)).length =
          ((List.take n rest).filter (fun w => numberFalsy w.number)).length +
            (if numberFalsy v.number then 1 else 0) := by
        by_cases hfal : numberFalsy v.number
        · simp [List.take_succ_cons, List.filter_cons, hfal]
        · simp [List.take_succ_cons, List.filter_cons, hfal]
      rw [hget, hcount]
      have harith : seq + (if numberFalsy v.number then 1 else 0) +
            ((List.take n rest).filter (fun w => numberFalsy w.number)).length =
          seq + (((List.take n rest).filter (fun w => numberFalsy w.number)).length +
            (if numberFalsy v.number then 1 else 0)) := by
        omega
      rw [harith]

theorem mkCards_length (nid cur : Nat) (vl : List GiftCardVals) :
    (mkCards nid cur vl).length = vl.length := by
  induction vl generalizing nid with
  | nil => rfl
  | cons v rest ih => simp [mkCards, ih]

theorem mkCards_getD (nid cur : Nat) (vl : List GiftCardVals) (i : Nat)
    (d : GiftCard) (dv : GiftCardVals) (h : i < vl.length) :
    (mkCards nid cur vl).getD i d = mkCard (nid + i) cur (vl.getD i dv) := by
  induction vl generalizing nid i with
  | nil => simp at h
  | cons v rest ih =>
    cases i with
    | zero => simp [mkCards, List.getD_cons_zero]
    | succ n =>
      have hn : n < rest.length := by simpa using h
      have harith : nid + 1 + n = nid + (n + 1) := by omega
      simp only [mkCards, List.getD_cons_succ]
      rw [ih (nid + 1) n hn, harith]

theorem mkCards_mem (nid cur : Nat) (vl : List GiftCardVals) (c : GiftCard)
    (h : c ∈ mkCards nid cur vl) :
    ∃ v ∈ vl, c.amount = v.amount.getD 0 ∧ c.sale_line = v.sale_line ∧
      c.message = v.message ∧ c.state = v.state.getD GiftCard.default_state ∧
      c.number = v.number.getD "" ∧ c.currency = v.currency.getD cur ∧ nid ≤ c.id := by
  induction vl generalizing nid with
  | nil => simp [mkCards] at h
  | cons v rest ih =>
    simp only [mkCards, List.mem_cons] at h
    rcases h with h | h
    · exact ⟨v, List.mem_cons_self v rest, by simp [h, mkCard]⟩
    · rcases ih (nid + 1) h with ⟨w, hw, hfields⟩
      exact ⟨w, List.mem_cons_of_mem _ hw, hfields.1, hfields.2.1, hfields.2.2.1,
        hfields.2.2.2.1, hfields.2.2.2.2.1, hfields.2.2.2.2.2.1,
        by omega⟩

theorem insertAll_eq (db : DB) (vl : List GiftCardVals) :
    insertAll db vl =
      ({ db with
          gift_cards := db.gift_cards ++ mkCards db.nextId db.company_currency vl,
          nextId := db.nextId + vl.length },
        (mkCards db.nextId db.company_currency vl).map (fun c => c.id)) := by
  induction vl generalizing db with
  | nil => simp [insertAll, mkCards]
  | cons v rest ih =>
    simp only [insertAll, mkCards, List.map_cons, List.length_cons]
    rw [ih]
    simp only [Prod.mk.injEq, DB.mk.injEq, List.append_assoc, List.singleton_append,
      true_and, and_true]
    omega

theorem create_ok_spec (db : DB) (vl : List GiftCardVals) (r : DB × List Nat)
    (h : GiftCard.create db vl = Except.ok r) :
    r.1 = { db with
        gift_cards := db.gift_cards ++ createdCards db vl,
        nextId := db.nextId + vl.length,
        nextSeq := (assignNumbers vl db.nextSeq).2 } ∧
    r.2 = (createdCards db vl).map (fun c => c.id) ∧
    uniqueNumbers r.1 := by
  unfold GiftCard.create superCreate at h
  rw [insertAll_eq] at h
  split at h
  case isTrue hu =>
    have hr := Except.ok.inj h
    have h1 : r.1 = { db with
        gift_cards := db.gift_cards ++ createdCards db vl,
        nextId := db.nextId + vl.length,
        nextSeq := (assignNumbers vl db.nextSeq).2 } := by
      rw [← hr]
      simp [createdCards, assign_length]
    refine ⟨h1, ?_, ?_⟩
    · rw [← hr]
      simp [createdCards]
    · rw [h1]
      rw [← hr] at h1
      simpa [← h1] using hu
  case isFalse => exact absurd h (by simp)

theorem create_nil (db : DB) (h : uniqueNumbers db) :
    GiftCard.create db [] = Except.ok (db, []) := by
  have hdb : ({ db with nextSeq := db.nextSeq } : DB) = db := rfl
  simp [GiftCard.create, assignNumbers, superCreate, insertAll, hdb, h]

theorem transitionFun_fields (t : GCState) (ids : List Nat) (c : GiftCard) :
    (transitionFun t ids c).id = c.id ∧ (transitionFun t ids c).number = c.number ∧
    (transitionFun t ids c).amount = c.amount ∧
    (transitionFun t ids c).sale_line = c.sale_line ∧
    (transitionFun t ids c).message = c.message ∧
    (transitionFun t ids c).currency = c.currency := by
  unfold transitionFun
  split <;> simp

theorem transitionFun_state (t : GCState) (ids : List Nat) (c : GiftCard) :
    transitionFun t ids c = c ∨
    (c.id ∈ ids ∧ (c.state, t) ∈ allowedTransitions ∧ (transitionFun t ids c).state = t) := by
  unfold transitionFun
  split
  case isTrue hcond => exact Or.inr ⟨hcond.1, hcond.2, rfl⟩
  case isFalse => exact Or.inl rfl

theorem lineCardData_transition (t : GCState) (ids : List Nat) (db : DB) (l : SaleLine) :
    lineCardData (workflowTransition t ids db) l = lineCardData db l := by
  unfold lineCardData SaleLine.gift_cards workflowTransition
  rw [List.filter_map, List.map_map]
  have h1 : db.gift_cards.filter
        ((fun c => decide (c.sale_line = some l.id)) ∘ transitionFun t ids) =
      db.gift_cards.filter (fun c => decide (c.sale_line = some l.id)) :=
    List.filter_congr (fun c _ => by
      simp [Function.comp, (transitionFun_fields t ids c).2.2.2.1])
  rw [h1]
  exact List.map_congr_left (fun c _ => by
    simp [Function.comp, (transitionFun_fields t ids c).2.2.1,
      (transitionFun_fields t ids c).2.2.2.2.1])

theorem transition_numbers (t : GCState) (ids : List Nat) (db : DB) :
    (workflowTransition t ids db).gift_cards.map (fun c => c.number) =
      db.gift_cards.map (fun c => c.number) := by
  unfold workflowTransition
  simp only [List.map_map]
  exact List.map_congr_left (fun c _ => by
    simp [Function.comp, (transitionFun_fields t ids c).2.1])

theorem checkDeletable_error_iff (L : List GiftCard) :
    checkDeletable L = Except.error "deletion_not_allowed" ↔
      ∃ c ∈ L, c.state = GCState.active := by
  induction L with
  | nil => simp [checkDeletable]
  | cons c rest ih =>
    by_cases hc : c.state = GCState.active
    · simp [checkDeletable, hc]
    · simp [checkDeletable, hc, ih]

theorem checkDeletable_ok (L : List GiftCard)
    (h : ∀ c ∈ L, c.state ≠ GCState.active) : checkDeletable L = Except.ok () := by
  induction L with
  | nil => rfl
  | cons c rest ih =>
    have hc : ¬ c.state = GCState.active := h c (List.mem_cons_self c rest)
    simp only [checkDeletable, if_neg hc]
    exact ih (fun x hx => h x (List.mem_cons_of_mem _ hx))

theorem createdCards_length (db : DB) (vl : List GiftCardVals) :
    (createdCards db vl).length = vl.length := by
  unfold createdCards
  rw [mkCards_length, assign_length]

theorem createdCards_mem (db : DB) (vl : List GiftCardVals) (c : GiftCard)
    (h : c ∈ createdCards db vl) :
    ∃ v ∈ vl, c.amount = v.amount.getD 0 ∧ c.sale_line = v.sale_line ∧
      c.message = v.message ∧ c.state = v.state.getD GiftCard.default_state ∧
      db.nextId ≤ c.id := by
  unfold createdCards at h
  obtain ⟨v2, hv2, hfields⟩ := mkCards_mem _ _ _ _ h
  have hmap := assign_proj (fun v => (v.amount, v.sale_line, v.message, v.state))
    (fun v s => rfl) vl db.nextSeq
  have hmem : (v2.amount, v2.sale_line, v2.message, v2.state) ∈
      vl.map (fun v => (v.amount, v.sale_line, v.message, v.state)) := by
    rw [← hmap]
    exact List.mem_map_of_mem _ hv2
  obtain ⟨v, hv, heq⟩ := List.mem_map.mp hmem
  have hq : v.amount = v2.amount ∧ v.sale_line = v2.sale_line ∧
      v.message = v2.message ∧ v.state = v2.state := by
    simpa [Prod.ext_iff] using heq
  exact ⟨v, hv, by rw [hfields.1, hq.1], by rw [hfields.2.1, hq.2.1],
    by rw [hfields.2.2.1, hq.2.2.1], by rw [hfields.2.2.2.1, hq.2.2.2],
    hfields.2.2.2.2.2.2⟩

theorem lineCardData_ok_create (db : DB) (vl : List GiftCardVals) (r : DB × List Nat)
    (hc : GiftCard.create db vl = Except.ok r) (l : SaleLine) :
    lineCardData r.1 l = lineCardData db l ++
      ((createdCards db vl).filter (fun c => decide (c.sale_line = some l.id))).map
        (fun c => (c.amount, c.message)) := by
  obtain ⟨h1, _, _⟩ := create_ok_spec db vl r hc
  unfold lineCardData SaleLine.gift_cards
  rw [h1]
  simp [List.filter_append]

theorem data_empty_iff (db : DB) (l : SaleLine) :
    lineCardData db l = [] ↔ SaleLine.gift_cards db l = [] := by
  unfold lineCardData
  exact List.map_eq_nil_iff

theorem createLine_not_gift (db : DB) (l : SaleLine) (hgcf : l.is_gift_card = false) :
    SaleLine.create_gift_cards db l = Except.ok (db, none) := by
  unfold SaleLine.create_gift_cards
  rw [hgcf]
  simp

theorem createLine_nonempty_gcs (db : DB) (l : SaleLine)
    (hgc : l.is_gift_card = true) (hemp : (SaleLine.gift_cards db l).isEmpty = false) :
    SaleLine.create_gift_cards db l = Except.ok (db, none) := by
  unfold SaleLine.create_gift_cards
  rw [hgc, hemp]
  simp

theorem createLine_eq_create (db : DB) (l : SaleLine)
    (hgc : l.is_gift_card = true) (hemp : SaleLine.gift_cards db l = []) :
    SaleLine.create_gift_cards db l =
      match GiftCard.create db (List.replicate (pyInt l.quantity).toNat
          { amount := some l.amount, sale_line := some l.id, message := l.message }) with
      | Except.error e => Except.error e
      | Except.ok r => Except.ok (GiftCard.activate r.2 r.1, some r.2) := by
  unfold SaleLine.create_gift_cards
  rw [hgc, hemp]
  simp

theorem createLine_done (db : DB) (l : SaleLine) (p : DB × Option (List Nat))
    (hgc : l.is_gift_card = true) (hempty : lineCardData db l = [])
    (h : SaleLine.create_gift_cards db l = Except.ok p) :
    lineCardData p.1 l =
      List.replicate (pyInt l.quantity).toNat (l.amount, l.message) := by
  have hgcs : SaleLine.gift_cards db l = [] := (data_empty_iff db l).mp hempty
  rw [createLine_eq_create db l hgc hgcs] at h
  set vl := List.replicate (pyInt l.quantity).toNat
    ({ amount := some l.amount, sale_line := some l.id, message := l.message } :
      GiftCardVals) with hvl
  rcases hcr : GiftCard.create db vl with e | r
  · rw [hcr] at h
    exact absurd h (by simp)
  · rw [hcr] at h
    have hp : p = (GiftCard.activate r.2 r.1, some r.2) := (Except.ok.inj h).symm
    rw [hp]
    have hact : lineCardData (GiftCard.activate r.2 r.1) l = lineCardData r.1 l :=
      lineCardData_transition _ _ _ _
    rw [hact, lineCardData_ok_create db _ r hcr l, hempty]
    have hall : ∀ c ∈ createdCards db vl,
        c.amount = l.amount ∧ c.sale_line = some l.id ∧ c.message = l.message := by
      intro c hcmem
      obtain ⟨v, hv, hfields⟩ := createdCards_mem db vl c hcmem
      have hvv : v =
          { amount := some l.amount, sale_line := some l.id, message := l.message } :=
        List.eq_of_mem_replicate hv
      rw [hvv] at hfields
      exact ⟨hfields.1, hfields.2.1, hfields.2.2.1⟩
    have hfilt : (createdCards db vl).filter
        (fun c => decide (c.sale_line = some l.id)) = createdCards db vl :=
      List.filter_eq_self.mpr (fun c hcmem => by simp [(hall c hcmem).2.1])
    rw [hfilt]
    rw [List.eq_replicate_iff]
    constructor
    · simp only [List.nil_append, List.length_map]
      rw [createdCards_length, hvl, List.length_replicate]
    · intro b hb
      simp only [List.nil_append] at hb
      obtain ⟨c, hcmem, hcb⟩ := List.mem_map.mp hb
      rw [← hcb, (hall c hcmem).1, (hall c hcmem).2.2]

theorem createLine_other (db : DB) (l l2 : SaleLine) (p : DB × Option (List Nat))
    (hne : l2.id ≠ l.id)
    (h : SaleLine.create_gift_cards db l2 = Except.ok p) :
    lineCardData p.1 l = lineCardData db l := by
  by_cases hgc2 : l2.is_gift_card = true
  · rcases hgs : SaleLine.gift_cards db l2 with _ | ⟨a, rest⟩
    · rw [createLine_eq_create db l2 hgc2 hgs] at h
      set vl2 := List.replicate (pyInt l2.quantity).toNat
        ({ amount := some l2.amount, sale_line := some l2.id, message := l2.message } :
          GiftCardVals) with hvl2
      rcases hcr : GiftCard.create db vl2 with e | r
      · rw [hcr] at h
        exact absurd h (by simp)
      · rw [hcr] at h
        have hp : p = (GiftCard.activate r.2 r.1, some r.2) := (Except.ok.inj h).symm
        rw [hp]
        have hact : lineCardData (GiftCard.activate r.2 r.1) l = lineCardData r.1 l :=
          lineCardData_transition _ _ _ _
        rw [hact, lineCardData_ok_create db vl2 r hcr l]
        have hfilt : (createdCards db vl2).filter
            (fun c => decide (c.sale_line = some l.id)) = [] := by
          rw [List.filter_eq_nil_iff]
          intro c hcmem
          obtain ⟨v, hv, hfields⟩ := createdCards_mem db vl2 c hcmem
          have hvv : v =
              { amount := some l2.amount, sale_line := some l2.id
                message := l2.message } :=
            List.eq_of_mem_replicate hv
          rw [hvv] at hfields
          simp only [hfields.2.1]
          simp [hne]
        rw [hfilt]
        simp
    · have hemp : (SaleLine.gift_cards db l2).isEmpty = false := by
        rw [hgs]
        rfl
      rw [createLine_nonempty_gcs db l2 hgc2 hemp] at h
      have hp : p = (db, none) := (Except.ok.inj h).symm
      rw [hp]
  · have hgcf : l2.is_gift_card = false := by
      cases hb : l2.is_gift_card
      · rfl
      · exact absurd hb hgc2
    rw [createLine_not_gift db l2 hgcf] at h
    have hp : p = (db, none) := (Except.ok.inj h).symm
    rw [hp]

theorem createLine_self_nonempty (db : DB) (l : SaleLine) (p : DB × Option (List Nat))
    (hne : lineCardData db l ≠ [])
    (h : SaleLine.create_gift_cards db l = Except.ok p) : p.1 = db := by
  by_cases hgc : l.is_gift_card = true
  · have hgcs : SaleLine.gift_cards db l ≠ [] := by
      intro hg
      exact hne ((data_empty_iff db l).mpr hg)
    have hemp : (SaleLine.gift_cards db l).isEmpty = false := by
      rcases hgs : SaleLine.gift_cards db l with _ | ⟨a, rest⟩
      · exact absurd hgs hgcs
      · rfl
    rw [createLine_nonempty_gcs db l hgc hemp] at h
    have hp : p = (db, none) := (Except.ok.inj h).symm
    rw [hp]
  · have hgcf : l.is_gift_card = false := by
      cases hb : l.is_gift_card
      · rfl
      · exact absurd hb hgc
    rw [createLine_not_gift db l hgcf] at h
    have hp : p = (db, none) := (Except.ok.inj h).symm
    rw [hp]


theorem nodup_map_inj {α β : Type} (l : List α) (f : α → β)
    (h : (l.map f).Nodup) (a : α) (b : α) (ha : a ∈ l) (hb : b ∈ l)
    (hf : f a = f b) : a = b := by
  induction l with
  | nil => cases ha
  | cons x rest ih =>
    rw [List.map_cons, List.nodup_cons] at h
    rcases List.mem_cons.mp ha with rfl | ha2
    · rcases List.mem_cons.mp hb with rfl | hb2
      · rfl
      · have : f a ∈ rest.map f := hf ▸ List.mem_map_of_mem f hb2
        exact absurd this h.1
    · rcases List.mem_cons.mp hb with rfl | hb2
      · have : f b ∈ rest.map f := hf ▸ List.mem_map_of_mem f ha2
        exact absurd this h.1
      · exact ih h.2 ha2 hb2

theorem createLine_cases (db : DB) (l : SaleLine) (p : DB × Option (List Nat))
    (h : SaleLine.create_gift_cards db l = Except.ok p) :
    p = (db, none) ∨
    (l.is_gift_card = true ∧ SaleLine.gift_cards db l = [] ∧
      ∃ r : DB × List Nat,
        GiftCard.create db (List.replicate (pyInt l.quantity).toNat
            { amount := some l.amount, sale_line := some l.id, message := l.message }) =
          Except.ok r ∧
        p = (GiftCard.activate r.2 r.1, some r.2)) := by
  by_cases hgc : l.is_gift_card = true
  · rcases hgs : SaleLine.gift_cards db l with _ | ⟨a, rest⟩
    · rw [createLine_eq_create db l hgc hgs] at h
      rcases hcr : GiftCard.create db (List.replicate (pyInt l.quantity).toNat
          { amount := some l.amount, sale_line := some l.id, message := l.message })
        with e | r
      · rw [hcr] at h
        exact absurd h (by simp)
      · rw [hcr] at h
        exact Or.inr ⟨hgc, rfl, r, rfl, (Except.ok.inj h).symm⟩
    · have hemp : (SaleLine.gift_cards db l).isEmpty = false := by
        rw [hgs]
        rfl
      rw [createLine_nonempty_gcs db l hgc hemp] at h
      exact Or.inl (Except.ok.inj h).symm
  · have hgcf : l.is_gift_card = false := by
      cases hb : l.is_gift_card
      · rfl
      · exact absurd hb hgc
    rw [createLine_not_gift db l hgcf] at h
    exact Or.inl (Except.ok.inj h).symm

theorem createLine_unique (db : DB) (l : SaleLine) (p : DB × Option (List Nat))
    (hu : uniqueNumbers db) (h : SaleLine.create_gift_cards db l = Except.ok p) :
    uniqueNumbers p.1 := by
  rcases createLine_cases db l p h with hp | ⟨_, _, r, hcr, hp⟩
  · rw [hp]
    exact hu
  · rw [hp]
    have h3 := (create_ok_spec db _ r hcr).2.2
    unfold uniqueNumbers GiftCard.activate
    rw [transition_numbers]
    exact h3

theorem processLines_preserve (lines : List SaleLine) (db db2 : DB) (l : SaleLine)
    (h : processLines db lines = Except.ok db2)
    (hne : ∀ l2 ∈ lines, l2.id ≠ l.id) :
    lineCardData db2 l = lineCardData db l := by
  induction lines generalizing db with
  | nil =>
    simp only [processLines] at h
    rw [← Except.ok.inj h]
  | cons l0 rest ih =>
    simp only [processLines] at h
    rcases hc : SaleLine.create_gift_cards db l0 with e | p
    · rw [hc] at h
      exact absurd h (by simp)
    · rw [hc] at h
      have hstep := createLine_other db l l0 p
        (hne l0 (List.mem_cons_self l0 rest)) hc
      rw [ih p.1 h (fun l2 h2 => hne l2 (List.mem_cons_of_mem _ h2)), hstep]

theorem processLines_unique (lines : List SaleLine) (db db2 : DB)
    (h : processLines db lines = Except.ok db2) (hu : uniqueNumbers db) :
    uniqueNumbers db2 := by
  induction lines generalizing db with
  | nil =>
    simp only [processLines] at h
    rw [← Except.ok.inj h]
    exact hu
  | cons l0 rest ih =>
    simp only [processLines] at h
    rcases hc : SaleLine.create_gift_cards db l0 with e | p
    · rw [hc] at h
      exact absurd h (by simp)
    · rw [hc] at h
      exact ih p.1 h (createLine_unique db l0 p hu hc)

theorem processLines_target (lines : List SaleLine) (db db2 : DB) (l : SaleLine)
    (h : processLines db lines = Except.ok db2)
    (hnodup : (lines.map (fun x => x.id)).Nodup)
    (hl : l ∈ lines) (hgc : l.is_gift_card = true)
    (hempty : lineCardData db l = []) :
    lineCardData db2 l =
      List.replicate (pyInt l.quantity).toNat (l.amount, l.message) := by
  induction lines generalizing db with
  | nil => cases hl
  | cons l0 rest ih =>
    simp only [processLines] at h
    rw [List.map_cons, List.nodup_cons] at hnodup
    rcases hc : SaleLine.create_gift_cards db l0 with e | p
    · rw [hc] at h
      exact absurd h (by simp)
    · rw [hc] at h
      rcases List.mem_cons.mp hl with rfl | hlr
      · have hdone := createLine_done db l p hgc hempty hc
        have hrest : ∀ l2 ∈ rest, l2.id ≠ l.id := by
          intro l2 h2 heq
          exact hnodup.1 (heq ▸ List.mem_map_of_mem _ h2)
        rw [processLines_preserve rest p.1 db2 l h hrest, hdone]
      · have hne0 : l0.id ≠ l.id := by
          intro heq
          exact hnodup.1 (heq ▸ List.mem_map_of_mem _ hlr)
        have hpres := createLine_other db l l0 p hne0 hc
        exact ih p.1 h hnodup.2 hlr (hpres.trans hempty)

theorem processLines_nonempty (lines : List SaleLine) (db db2 : DB) (l : SaleLine)
    (h : processLines db lines = Except.ok db2)
    (hinj : ∀ l2 ∈ lines, l2.id = l.id → l2 = l)
    (hdata : lineCardData db l ≠ []) :
    lineCardData db2 l = lineCardData db l := by
  induction lines generalizing db with
  | nil =>
    simp only [processLines] at h
    rw [← Except.ok.inj h]
  | cons l0 rest ih =>
    simp only [processLines] at h
    rcases hc : SaleLine.create_gift_cards db l0 with e | p
    · rw [hc] at h
      exact absurd h (by simp)
    · rw [hc] at h
      by_cases heq : l0.id = l.id
      · have hl0 : l0 = l := hinj l0 (List.mem_cons_self l0 rest) heq
        subst hl0
        have hp1 : p.1 = db := createLine_self_nonempty db l0 p hdata hc
        have hres := ih p.1 h (fun l2 h2 => hinj l2 (List.mem_cons_of_mem _ h2))
          (by rw [hp1]; exact hdata)
        rw [hres, hp1]
      · have hstep := createLine_other db l l0 p heq hc
        have hres := ih p.1 h (fun l2 h2 => hinj l2 (List.mem_cons_of_mem _ h2))
          (hstep.symm ▸ hdata)
        rw [hres, hstep]

theorem activate_nil (db : DB) : GiftCard.activate [] db = db := by
  unfold GiftCard.activate workflowTransition
  have hmap : db.gift_cards.map (transitionFun GCState.active []) = db.gift_cards := by
    have h1 : db.gift_cards.map (transitionFun GCState.active []) =
        db.gift_cards.map id :=
      List.map_congr_left (fun c _ => by simp [transitionFun])
    rw [h1, List.map_id]
  rw [hmap]

theorem createLine_fixed (db : DB) (l : SaleLine) (huniq : uniqueNumbers db)
    (hfix : lineCardData db l ≠ [] ∨ (pyInt l.quantity).toNat = 0) :
    ∃ o, SaleLine.create_gift_cards db l = Except.ok (db, o) := by
  by_cases hgc : l.is_gift_card = true
  · rcases hgs : SaleLine.gift_cards db l with _ | ⟨a, rest⟩
    · have hdata : lineCardData db l = [] := (data_empty_iff db l).mpr hgs
      have hn : (pyInt l.quantity).toNat = 0 := by
        rcases hfix with hf | hf
        · exact absurd hdata hf
        · exact hf
      refine ⟨some [], ?_⟩
      rw [createLine_eq_create db l hgc hgs, hn]
      simp only [List.replicate]
      rw [create_nil db huniq]
      show Except.ok (GiftCard.activate ([] : List Nat) db, some ([] : List Nat)) =
        Except.ok (db, some [])
      rw [activate_nil db]
    · have hemp : (SaleLine.gift_cards db l).isEmpty = false := by
        rw [hgs]
        rfl
      exact ⟨none, createLine_nonempty_gcs db l hgc hemp⟩
  · have hgcf : l.is_gift_card = false := by
      cases hb : l.is_gift_card
      · rfl
      · exact absurd hb hgc
    exact ⟨none, createLine_not_gift db l hgcf⟩

theorem saleCreate_preserve (db db2 : DB) (s : Sale) (l : SaleLine)
    (h : Sale.create_gift_cards db s = Except.ok db2)
    (hne : ∀ l2 ∈ s.lines, l2.id ≠ l.id) :
    lineCardData db2 l = lineCardData db l :=
  processLines_preserve _ db db2 l h (fun l2 h2 => hne l2 (List.mem_of_mem_filter h2))

theorem saleCreate_target (db db2 : DB) (s : Sale) (l : SaleLine)
    (h : Sale.create_gift_cards db s = Except.ok db2)
    (hnodup : (s.lines.map (fun x => x.id)).Nodup)
    (hl : l ∈ s.lines) (hgc : l.is_gift_card = true)
    (hempty : lineCardData db l = []) :
    lineCardData db2 l =
      List.replicate (pyInt l.quantity).toNat (l.amount, l.message) :=
  processLines_target _ db db2 l h
    (hnodup.sublist ((List.filter_sublist s.lines).map _))
    (List.mem_filter.mpr ⟨hl, hgc⟩) hgc hempty

theorem saleCreate_nonempty (db db2 : DB) (s : Sale) (l : SaleLine)
    (h : Sale.create_gift_cards db s = Except.ok db2)
    (hinj : ∀ l2 ∈ s.lines, l2.id = l.id → l2 = l)
    (hdata : lineCardData db l ≠ []) :
    lineCardData db2 l = lineCardData db l :=
  processLines_nonempty _ db db2 l h
    (fun l2 h2 => hinj l2 (List.mem_of_mem_filter h2)) hdata

theorem processSales_preserve (sales : List Sale) (db db2 : DB) (l : SaleLine)
    (h : processSales db sales = Except.ok db2)
    (hne : ∀ s ∈ sales, ∀ l2 ∈ s.lines, l2.id ≠ l.id) :
    lineCardData db2 l = lineCardData db l := by
  induction sales generalizing db with
  | nil =>
    simp only [processSales] at h
    rw [← Except.ok.inj h]
  | cons s0 rest ih =>
    simp only [processSales] at h
    by_cases hst : s0.state = "confirmed" ∨ s0.state = "processing" ∨ s0.state = "done"
    · rw [if_pos hst] at h
      rcases hc : Sale.create_gift_cards db s0 with e | dbm
      · rw [hc] at h
        exact absurd h (by simp)
      · rw [hc] at h
        have hstep := saleCreate_preserve db dbm s0 l hc
          (hne s0 (List.mem_cons_self s0 rest))
        rw [ih dbm h (fun s hsm => hne s (List.mem_cons_of_mem _ hsm)), hstep]
    · rw [if_neg hst] at h
      exact ih db h (fun s hsm => hne s (List.mem_cons_of_mem _ hsm))

theorem processSales_unique (sales : List Sale) (db db2 : DB)
    (h : processSales db sales = Except.ok db2) (hu : uniqueNumbers db) :
    uniqueNumbers db2 := by
  induction sales generalizing db with
  | nil =>
    simp only [processSales] at h
    rw [← Except.ok.inj h]
    exact hu
  | cons s0 rest ih =>
    simp only [processSales] at h
    by_cases hst : s0.state = "confirmed" ∨ s0.state = "processing" ∨ s0.state = "done"
    · rw [if_pos hst] at h
      rcases hc : Sale.create_gift_cards db s0 with e | dbm
      · rw [hc] at h
        exact absurd h (by simp)
      · rw [hc] at h
        exact ih dbm h (processLines_unique _ db dbm hc hu)
    · rw [if_neg hst] at h
      exact ih db h hu

theorem processSales_target (sales : List Sale) (db db2 : DB) (s : Sale) (l : SaleLine)
    (h : processSales db sales = Except.ok db2)
    (hnodup : ((sales.flatMap (fun s2 => s2.lines)).map (fun x => x.id)).Nodup)
    (hs : s ∈ sales)
    (hstate : s.state = "confirmed" ∨ s.state = "processing" ∨ s.state = "done")
    (hl : l ∈ s.lines) (hgc : l.is_gift_card = true)
    (hempty : lineCardData db l = []) :
    lineCardData db2 l =
      List.replicate (pyInt l.quantity).toNat (l.amount, l.message) := by
  induction sales generalizing db with
  | nil => cases hs
  | cons s0 rest ih =>
    simp only [processSales] at h
    rw [List.flatMap_cons, List.map_append, List.nodup_append] at hnodup
    rcases List.mem_cons.mp hs with rfl | hsr
    · rw [if_pos hstate] at h
      rcases hc : Sale.create_gift_cards db s with e | dbm
      · rw [hc] at h
        exact absurd h (by simp)
      · rw [hc] at h
        have hdone := saleCreate_target db dbm s l hc hnodup.1 hl hgc hempty
        have hrest : ∀ s2 ∈ rest, ∀ l2 ∈ s2.lines, l2.id ≠ l.id := by
          intro s2 hs2 l2 hl2 heq
          have hA : l.id ∈ s.lines.map (fun x => x.id) := List.mem_map_of_mem _ hl
          have hB : l.id ∈ (rest.flatMap (fun s2 => s2.lines)).map (fun x => x.id) :=
            heq ▸ List.mem_map_of_mem _ (List.mem_flatMap.mpr ⟨s2, hs2, hl2⟩)
          exact hnodup.2.2 hA hB
        rw [processSales_preserve rest dbm db2 l h hrest, hdone]
    · by_cases hst0 : s0.state = "confirmed" ∨ s0.state = "processing" ∨ s0.state = "done"
      · rw [if_pos hst0] at h
        rcases hc : Sale.create_gift_cards db s0 with e | dbm
        · rw [hc] at h
          exact absurd h (by simp)
        · rw [hc] at h
          have hne0 : ∀ l2 ∈ s0.lines, l2.id ≠ l.id := by
            intro l2 hl2 heq
            have hA : l.id ∈ s0.lines.map (fun x => x.id) :=
              heq ▸ List.mem_map_of_mem _ hl2
            have hB : l.id ∈ (rest.flatMap (fun s2 => s2.lines)).map (fun x => x.id) :=
              List.mem_map_of_mem _ (List.mem_flatMap.mpr ⟨s, hsr, hl⟩)
            exact hnodup.2.2 hA hB
          have hpres := saleCreate_preserve db dbm s0 l hc hne0
          exact ih dbm h hnodup.2.1 hsr (hpres.trans hempty)
      · rw [if_neg hst0] at h
        exact ih db h hnodup.2.1 hsr hempty

theorem processSales_nonempty (sales : List Sale) (db db2 : DB) (l : SaleLine)
    (h : processSales db sales = Except.ok db2)
    (hinj : ∀ l2 ∈ sales.flatMap (fun s2 => s2.lines), l2.id = l.id → l2 = l)
    (hdata : lineCardData db l ≠ []) :
    lineCardData db2 l = lineCardData db l := by
  induction sales generalizing db with
  | nil =>
    simp only [processSales] at h
    rw [← Except.ok.inj h]
  | cons s0 rest ih =>
    simp only [processSales] at h
    have hinj0 : ∀ l2 ∈ s0.lines, l2.id = l.id → l2 = l := by
      intro l2 hl2 heq
      exact hinj l2 (List.mem_flatMap.mpr ⟨s0, List.mem_cons_self s0 rest, hl2⟩) heq
    have hinjr : ∀ l2 ∈ rest.flatMap (fun s2 => s2.lines), l2.id = l.id → l2 = l := by
      intro l2 hl2 heq
      obtain ⟨s2, hs2, hl2m⟩ := List.mem_flatMap.mp hl2
      exact hinj l2 (List.mem_flatMap.mpr ⟨s2, List.mem_cons_of_mem _ hs2, hl2m⟩) heq
    by_cases hst : s0.state = "confirmed" ∨ s0.state = "processing" ∨ s0.state = "done"
    · rw [if_pos hst] at h
      rcases hc : Sale.create_gift_cards db s0 with e | dbm
      · rw [hc] at h
        exact absurd h (by simp)
      · rw [hc] at h
        have hstep := saleCreate_nonempty db dbm s0 l hc hinj0 hdata
        have hres := ih dbm h hinjr (hstep.symm ▸ hdata)
        rw [hres, hstep]
    · rw [if_neg hst] at h
      exact ih db h hinjr hdata

theorem processLines_fixed (lines : List SaleLine) (db : DB) (huniq : uniqueNumbers db)
    (hfix : ∀ l ∈ lines, lineCardData db l ≠ [] ∨ (pyInt l.quantity).toNat = 0) :
    processLines db lines = Except.ok db := by
  induction lines with
  | nil => rfl
  | cons l rest ih =>
    obtain ⟨o, ho⟩ := createLine_fixed db l huniq (hfix l (List.mem_cons_self l rest))
    simp only [processLines]
    rw [ho]
    exact ih (fun l2 h2 => hfix l2 (List.mem_cons_of_mem _ h2))

theorem processSales_fixed (sales : List Sale) (db : DB) (huniq : uniqueNumbers db)
    (hfix : ∀ s ∈ sales,
      (s.state = "confirmed" ∨ s.state = "processing" ∨ s.state = "done") →
      ∀ l ∈ s.lines, l.is_gift_card = true →
        (lineCardData db l ≠ [] ∨ (pyInt l.quantity).toNat = 0)) :
    processSales db sales = Except.ok db := by
  induction sales with
  | nil => rfl
  | cons s0 rest ih =>
    simp only [processSales]
    by_cases hst : s0.state = "confirmed" ∨ s0.state = "processing" ∨ s0.state = "done"
    · rw [if_pos hst]
      have hsale : Sale.create_gift_cards db s0 = Except.ok db := by
        apply processLines_fixed _ db huniq
        intro l hlf
        obtain ⟨hl, hgc⟩ := List.mem_filter.mp hlf
        exact hfix s0 (List.mem_cons_self s0 rest) hst l hl hgc
      rw [hsale]
      exact ih (fun s hsm => hfix s (List.mem_cons_of_mem _ hsm))
    · rw [if_neg hst]
      exact ih (fun s hsm => hfix s (List.mem_cons_of_mem _ hsm))

/-- C2 counterexample.  The claim says that processing a sale creates
exactly `int(quantity)` gift cards for every gift-card line without
previously created cards; at quantity `-1` the claim's hypotheses all hold,
`Sale.process` succeeds and creates no card (Python's `range(0, -1)` is
empty), yet `int(quantity) = -1 ≠ 0`. -/
theorem C2_counterexample :
    Sale.process cexDB0 [cexSaleNeg] = Except.ok cexDB0 ∧
    cexSaleNeg.state = "done" ∧
    cexLineNeg ∈ cexSaleNeg.lines ∧
    cexLineNeg.is_gift_card = true ∧
    SaleLine.gift_cards cexDB0 cexLineNeg = [] ∧
    ¬ ((SaleLine.gift_cards cexDB0 cexLineNeg).length : Int) =
        pyInt cexLineNeg.quantity := by
  refine ⟨rfl, rfl, ?_, rfl, rfl, ?_⟩
  · exact List.mem_cons_self _ _
  · decide

/-- C2 (amended).  For every sale whose state after `Sale.process` is
`confirmed`, `processing` or `done`, and every line of that sale with
`is_gift_card` set and no previously created gift cards, a successful
`Sale.process` creates exactly `max(int(quantity), 0)` gift cards, each
with the line's `amount` and `message` and linked to the line via
`sale_line` (the amendment: for a negative `int(quantity)` zero cards are
created, not a negative number; the `Nodup` hypothesis states that sale
line rows are distinct). -/
theorem C2_amended_process_issues_cards (db db2 : DB) (sales : List Sale)
    (s : Sale) (l : SaleLine)
    (hnodup : ((sales.flatMap (fun s2 => s2.lines)).map (fun x => x.id)).Nodup)
    (hok : Sale.process db sales = Except.ok db2)
    (hs : s ∈ sales)
    (hstate : s.state = "confirmed" ∨ s.state = "processing" ∨ s.state = "done")
    (hl : l ∈ s.lines) (hgc : l.is_gift_card = true)
    (hempty : SaleLine.gift_cards db l = []) :
    (SaleLine.gift_cards db2 l).length = (pyInt l.quantity).toNat ∧
    ∀ c ∈ SaleLine.gift_cards db2 l,
      c.amount = l.amount ∧ c.message = l.message ∧ c.sale_line = some l.id := by
  have hempty2 : lineCardData db l = [] := (data_empty_iff db l).mpr hempty
  have htgt := processSales_target sales db db2 s l hok hnodup hs hstate hl hgc hempty2
  constructor
  · have hlen := congrArg List.length htgt
    simpa [lineCardData] using hlen
  · intro c hc
    have hmem : (c.amount, c.message) ∈ lineCardData db2 l :=
      List.mem_map_of_mem _ hc
    rw [htgt] at hmem
    have hpair := List.eq_of_mem_replicate hmem
    have hp2 : c.amount = l.amount ∧ c.message = l.message := by
      simpa [Prod.ext_iff] using hpair
    have hsl : c.sale_line = some l.id := by
      have hf := List.of_mem_filter hc
      simpa using hf
    exact ⟨hp2.1, hp2.2, hsl⟩

/-- C2 witness: the amended theorem applied to the concrete scenario of a
sale in state `processing` with one gift-card line of quantity 2. -/
theorem C2_amended_witness :
    Sale.process cexDB0 [cexSale2] = Except.ok cexProcessed ∧
    (SaleLine.gift_cards cexProcessed cexLine2).length =
      (pyInt cexLine2.quantity).toNat ∧
    ∀ c ∈ SaleLine.gift_cards cexProcessed cexLine2,
      c.amount = cexLine2.amount ∧ c.message = cexLine2.message ∧
        c.sale_line = some cexLine2.id := by
  have happ := C2_amended_process_issues_cards cexDB0 cexProcessed [cexSale2]
    cexSale2 cexLine2 (by decide) rfl (List.mem_cons_self _ _)
    (Or.inr (Or.inl rfl)) (List.mem_cons_self _ _) rfl rfl
  exact ⟨rfl, happ.1, happ.2⟩

/-- C10.  Issuing gift cards is idempotent: `SaleLine.create_gift_cards`
returns `None` and changes nothing for a non-gift-card line or a line that
already has gift cards; after one successful `Sale.process`, running it
again returns the database unchanged (hence any number of repeats creates
no additional gift cards); and every card a line issuance does create is
in the `active` state in the resulting database.  The `Nodup`, uniqueness
and id-bound hypotheses state that the stored rows are well formed. -/
theorem C10_idempotent_issuance (db db2 : DB) (sales : List Sale) (l : SaleLine)
    (hnodup : ((sales.flatMap (fun s2 => s2.lines)).map (fun x => x.id)).Nodup)
    (huniq : uniqueNumbers db)
    (hbound : ∀ c ∈ db.gift_cards, c.id < db.nextId)
    (hok : Sale.process db sales = Except.ok db2) :
    ((l.is_gift_card = false ∨ SaleLine.gift_cards db l ≠ []) →
      SaleLine.create_gift_cards db l = Except.ok (db, none)) ∧
    Sale.process db2 sales = Except.ok db2 ∧
    (∀ p ids, SaleLine.create_gift_cards db l = Except.ok p → p.2 = some ids →
      ∀ c ∈ p.1.gift_cards, c.id ∈ ids → c.state = GCState.active) := by
  refine ⟨?_, ?_, ?_⟩
  · rintro (hgcf | hne)
    · exact createLine_not_gift db l hgcf
    · rcases hgs : SaleLine.gift_cards db l with _ | ⟨a, rest⟩
      · exact absurd hgs hne
      · by_cases hgc : l.is_gift_card = true
        · exact createLine_nonempty_gcs db l hgc (by rw [hgs]; rfl)
        · have hgcf : l.is_gift_card = false := by
            cases hb : l.is_gift_card
            · rfl
            · exact absurd hb hgc
          exact createLine_not_gift db l hgcf
  · have huniq2 : uniqueNumbers db2 := processSales_unique sales db db2 hok huniq
    apply processSales_fixed sales db2 huniq2
    intro s hs hstate l2 hl2 hgc2
    by_cases hd : lineCardData db l2 = []
    · have htgt := processSales_target sales db db2 s l2 hok hnodup hs hstate hl2 hgc2 hd
      rcases hn : (pyInt l2.quantity).toNat with _ | m
      · exact Or.inr rfl
      · refine Or.inl ?_
        rw [htgt, hn]
        simp
    · have hinj : ∀ l3 ∈ sales.flatMap (fun s2 => s2.lines), l3.id = l2.id → l3 = l2 := by
        intro l3 h3 heq
        exact nodup_map_inj _ _ hnodup l3 l2 h3
          (List.mem_flatMap.mpr ⟨s, hs, hl2⟩) heq
      have hpres := processSales_nonempty sales db db2 l2 hok hinj hd
      exact Or.inl (hpres.symm ▸ hd)
  · intro p ids hp hpids c hcmem hcid
    rcases createLine_cases db l p hp with hnone | ⟨hgc, hgs, r, hcr, hpr⟩
    · rw [hnone] at hpids
      exact absurd hpids (by simp)
    · set vl := List.replicate (pyInt l.quantity).toNat
        ({ amount := some l.amount, sale_line := some l.id, message := l.message } :
          GiftCardVals) with hvl
      rw [hpr] at hpids hcmem
      have hids : r.2 = ids := Option.some.inj hpids
      obtain ⟨hdb1, hids2, _⟩ := create_ok_spec db vl r hcr
      obtain ⟨x, hx, hfx⟩ := List.mem_map.mp hcmem
      have hxid : c.id = x.id := by
        rw [← hfx]
        exact (transitionFun_fields _ _ x).1
      have hxid_in : x.id ∈ (createdCards db vl).map (fun c2 => c2.id) := by
        rw [← hids2, hids, ← hxid]
        exact hcid
      rw [hdb1] at hx
      simp only [List.mem_append] at hx
      rcases hx with hold | hnew
      · exfalso
        obtain ⟨nc, hnc, hncid⟩ := List.mem_map.mp hxid_in
        obtain ⟨v, _, hvf⟩ := createdCards_mem db vl nc hnc
        have hlt := hbound x hold
        omega
      · obtain ⟨v, hv, hvf⟩ := createdCards_mem db vl x hnew
        have hvv : v =
            { amount := some l.amount, sale_line := some l.id, message := l.message } :=
          List.eq_of_mem_replicate hv
        have hxstate : x.state = GCState.draft := by
          rw [hvf.2.2.2.1, hvv]
          rfl
        have hxin : x.id ∈ r.2 := by
          rw [hids2]
          exact List.mem_map_of_mem _ hnew
        have hcond : x.id ∈ r.2 ∧ (x.state, GCState.active) ∈ allowedTransitions := by
          refine ⟨hxin, ?_⟩
          rw [hxstate]
          simp [allowedTransitions]
        rw [← hfx]
        unfold transitionFun
        rw [if_pos hcond]

/-- C10 witness: processing the already-processed concrete database again
returns it unchanged. -/
theorem C10_witness :
    Sale.process cexProcessed [cexSale2] = Except.ok cexProcessed :=
  (C10_idempotent_issuance cexDB0 cexProcessed [cexSale2] cexLineNeg
    (by decide) (by decide) (by decide) rfl).2.1

theorem allowed_no_used (s t : GCState) (h : (s, t) ∈ allowedTransitions) :
    s ≠ GCState.used ∧ t ≠ GCState.used := by
  simp only [allowedTransitions, List.mem_cons, List.not_mem_nil, or_false,
    Prod.mk.injEq] at h
  rcases h with ⟨rfl, rfl⟩ | ⟨rfl, rfl⟩ | ⟨rfl, rfl⟩ | ⟨rfl, rfl⟩ <;>
    exact ⟨by decide, by decide⟩

theorem transition_getD_spec (t : GCState) (ht : t ≠ GCState.used) (ids : List Nat)
    (db : DB) (i : Nat) (h : i < db.gift_cards.length) :
    (workflowTransition t ids db).gift_cards.length = db.gift_cards.length ∧
    ((db.gift_cards.getD i dummyCard).state ≠
        ((workflowTransition t ids db).gift_cards.getD i dummyCard).state →
      ((db.gift_cards.getD i dummyCard).state,
        ((workflowTransition t ids db).gift_cards.getD i dummyCard).state) ∈
          allowedTransitions) ∧
    (((workflowTransition t ids db).gift_cards.getD i dummyCard).state = GCState.used ↔
      (db.gift_cards.getD i dummyCard).state = GCState.used) := by
  have hmap : (workflowTransition t ids db).gift_cards.getD i dummyCard =
      transitionFun t ids (db.gift_cards.getD i dummyCard) := by
    unfold workflowTransition
    exact getD_map_of_lt db.gift_cards (transitionFun t ids) i dummyCard dummyCard h
  refine ⟨by unfold workflowTransition; exact List.length_map _ _, ?_, ?_⟩
  · intro hne
    rw [hmap]
    rcases transitionFun_state t ids (db.gift_cards.getD i dummyCard) with heq | hcond
    · rw [hmap, heq] at hne
      exact absurd rfl hne
    · rw [hcond.2.2]
      exact hcond.2.1
  · rw [hmap]
    rcases transitionFun_state t ids (db.gift_cards.getD i dummyCard) with heq | hcond
    · rw [heq]
    · constructor
      · intro hused
        rw [hcond.2.2] at hused
        exact absurd hused ht
      · intro hused
        exact absurd hused (allowed_no_used _ _ hcond.2.1).1

/-- C3.  Every workflow state change performed by the three buttons
(`activate`, `draft`, `cancel`) is one of the four declared
`(from-state, to-state)` pairs — when a record's state changes, the pair of
old and new state is in `allowedTransitions` — and no transition ever
enters or leaves the `used` state (the record at any position is in `used`
after a button exactly when it already was). -/
theorem C3_workflow_transitions (b : Button) (ids : List Nat) (db : DB) (i : Nat)
    (h : i < db.gift_cards.length) :
    (applyButton b ids db).gift_cards.length = db.gift_cards.length ∧
    ((db.gift_cards.getD i dummyCard).state ≠
        ((applyButton b ids db).gift_cards.getD i dummyCard).state →
      ((db.gift_cards.getD i dummyCard).state,
        ((applyButton b ids db).gift_cards.getD i dummyCard).state) ∈
          allowedTransitions) ∧
    (((applyButton b ids db).gift_cards.getD i dummyCard).state = GCState.used ↔
      (db.gift_cards.getD i dummyCard).state = GCState.used) := by
  cases b
  · exact transition_getD_spec GCState.active (by decide) ids db i h
  · exact transition_getD_spec GCState.draft (by decide) ids db i h
  · exact transition_getD_spec GCState.canceled (by decide) ids db i h

/-- C3 witness: pressing `cancel` on the first (active) card of the
concrete database moves it along the declared `(active, canceled)` pair and
never through `used`. -/
theorem C3_witness :
    (0 : Nat) < cexProcessed.gift_cards.length ∧
    ((applyButton Button.cancelBtn [0] cexProcessed).gift_cards.length =
        cexProcessed.gift_cards.length ∧
      ((cexProcessed.gift_cards.getD 0 dummyCard).state ≠
          ((applyButton Button.cancelBtn [0] cexProcessed).gift_cards.getD 0
            dummyCard).state →
        ((cexProcessed.gift_cards.getD 0 dummyCard).state,
          ((applyButton Button.cancelBtn [0] cexProcessed).gift_cards.getD 0
            dummyCard).state) ∈ allowedTransitions) ∧
      (((applyButton Button.cancelBtn [0] cexProcessed).gift_cards.getD 0
          dummyCard).state = GCState.used ↔
        (cexProcessed.gift_cards.getD 0 dummyCard).state = GCState.used)) :=
  ⟨by decide, C3_workflow_transitions Button.cancelBtn [0] cexProcessed 0 (by decide)⟩

/-- C4.  `GiftCard.create` appends one record per values dictionary; a
dictionary whose `number` is absent or falsy gets the next value of the
configured number sequence (the sequence counter advanced by the number of
falsy dictionaries before it), and a dictionary with a non-empty `number`
keeps it unchanged; the other values (`amount`, `sale_line`, `message`) are
stored as given.  The embedding is pure, so the caller's list and
dictionaries are never mutated (mirroring the `x.copy()` in the source). -/
theorem C4_create_number_assignment (db : DB) (vlist : List GiftCardVals)
    (r : DB × List Nat) (h : GiftCard.create db vlist = Except.ok r)
    (i : Nat) (hi : i < vlist.length) :
    r.1.gift_cards = db.gift_cards ++ createdCards db vlist ∧
    (createdCards db vlist).length = vlist.length ∧
    (numberFalsy (vlist.getD i emptyVals).number = true →
      ((createdCards db vlist).getD i dummyCard).number =
        toString (db.nextSeq +
          ((vlist.take i).filter (fun w => numberFalsy w.number)).length)) ∧
    (numberFalsy (vlist.getD i emptyVals).number = false →
      some ((createdCards db vlist).getD i dummyCard).number =
        (vlist.getD i emptyVals).number) ∧
    ((createdCards db vlist).getD i dummyCard).amount =
      ((vlist.getD i emptyVals).amount).getD 0 ∧
    ((createdCards db vlist).getD i dummyCard).sale_line =
      (vlist.getD i emptyVals).sale_line ∧
    ((createdCards db vlist).getD i dummyCard).message =
      (vlist.getD i emptyVals).message := by
  obtain ⟨h1, _, _⟩ := create_ok_spec db vlist r h
  have hgc : r.1.gift_cards = db.gift_cards ++ createdCards db vlist := by
    rw [h1]
  have hlen2 : i < (assignNumbers vlist db.nextSeq).1.length := by
    rw [assign_length]
    exact hi
  have hgetD : (createdCards db vlist).getD i dummyCard =
      mkCard (db.nextId + i) db.company_currency
        ((assignNumbers vlist db.nextSeq).1.getD i emptyVals) := by
    unfold createdCards
    exact mkCards_getD _ _ _ i dummyCard emptyVals hlen2
  rw [assign_getD vlist db.nextSeq i emptyVals hi] at hgetD
  by_cases hf : numberFalsy (vlist.getD i emptyVals).number = true
  · rw [if_pos hf] at hgetD
    refine ⟨hgc, createdCards_length db vlist, fun _ => ?_,
      fun hff => absurd (hff ▸ hf) (by decide), ?_, ?_, ?_⟩
    · rw [hgetD]
      rfl
    · rw [hgetD]
      rfl
    · rw [hgetD]
      rfl
    · rw [hgetD]
      rfl
  · have hfb : numberFalsy (vlist.getD i emptyVals).number = false := by
      cases hb : numberFalsy (vlist.getD i emptyVals).number
      · rfl
      · exact absurd hb hf
    rw [if_neg hf] at hgetD
    refine ⟨hgc, createdCards_length db vlist,
      fun hft => absurd (hfb ▸ hft) (by simp), fun _ => ?_, ?_, ?_, ?_⟩
    · rw [hgetD]
      show some (((vlist.getD i emptyVals).number).getD "") =
        (vlist.getD i emptyVals).number
      rcases hv : (vlist.getD i emptyVals).number with _ | s
      · rw [hv] at hfb
        exact absurd hfb (by simp [numberFalsy])
      · rfl
    · rw [hgetD]
      rfl
    · rw [hgetD]
      rfl
    · rw [hgetD]
      rfl

/-- C4 witness: creating from a dictionary with number `"Z"` and a blank
dictionary keeps `"Z"` and assigns the sequence value `"1"` to the blank
one. -/
theorem C4_witness :
    GiftCard.create cexDB0 [cexValsProvided, emptyVals] = Except.ok cexCreatedPair ∧
    numberFalsy (([cexValsProvided, emptyVals].getD 1 emptyVals).number) = true ∧
    ((createdCards cexDB0 [cexValsProvided, emptyVals]).getD 1 dummyCard).number =
      toString (cexDB0.nextSeq +
        (([cexValsProvided, emptyVals].take 1).filter
          (fun w => numberFalsy w.number)).length) :=
  ⟨rfl, by decide,
    (C4_create_number_assignment cexDB0 [cexValsProvided, emptyVals]
        cexCreatedPair rfl 1 (by decide)).2.2.1 (by decide)⟩

theorem nodup_map_getD_ne {α β : Type} (l : List α) (f : α → β)
    (h : (l.map f).Nodup) (i j : Nat) (d : α)
    (hi : i < l.length) (hj : j < l.length) (hij : i ≠ j) :
    f (l.getD i d) ≠ f (l.getD j d) := by
  induction l generalizing i j with
  | nil => simp at hi
  | cons a t ih =>
    rw [List.map_cons, List.nodup_cons] at h
    cases i with
    | zero =>
      cases j with
      | zero => exact absurd rfl hij
      | succ m =>
        simp only [List.getD_cons_zero, List.getD_cons_succ]
        intro heq
        refine h.1 ?_
        rw [heq]
        exact List.mem_map_of_mem f (getD_mem_of_lt t m d (by simpa using hj))
    | succ n =>
      cases j with
      | zero =>
        simp only [List.getD_cons_zero, List.getD_cons_succ]
        intro heq
        refine h.1 ?_
        rw [← heq]
        exact List.mem_map_of_mem f (getD_mem_of_lt t n d (by simpa using hi))
      | succ m =>
        simp only [List.getD_cons_succ]
        exact ih h.2 n m (by simpa using hi) (by simpa using hj) (by omega)

theorem addTxns_gift_cards (gc : Nat) (l : List (ℚ × String)) (db : DB) :
    (addTxns db gc l).gift_cards = db.gift_cards := by
  induction l generalizing db with
  | nil => rfl
  | cons p rest ih => simp [addTxns, ih]

theorem foldl_addTxns_gift_cards (d : CopyDefaults) (db0 : DB)
    (ps : List (GiftCard × Nat)) (acc : DB) :
    (ps.foldl (fun a p => addTxns a p.2 (copyTxnSpec d db0 p.1.id)) acc).gift_cards =
      acc.gift_cards := by
  induction ps generalizing acc with
  | nil => rfl
  | cons p rest ih =>
    simp only [List.foldl_cons]
    rw [ih, addTxns_gift_cards]

theorem uniqueNumbers_of_gift_cards_eq (a b : DB)
    (h : a.gift_cards = b.gift_cards) (hu : uniqueNumbers a) : uniqueNumbers b := by
  unfold uniqueNumbers at hu ⊢
  rw [← h]
  exact hu

/-- C5.  Gift card numbers are unique: the module declares exactly one SQL
constraint (`UNIQUE(number)`); every successful operation — create, copy,
delete and the three workflow transitions — preserves the invariant that
the table's numbers are pairwise distinct, so two gift cards stored at
different positions always have different numbers. -/
theorem C5_unique_numbers (db db2 : DB) (op : Op)
    (hu : uniqueNumbers db) (h : applyOp db op = Except.ok db2) :
    sqlConstraints.length = 1 ∧
    uniqueNumbers db2 ∧
    ∀ i j : Nat, i < db2.gift_cards.length → j < db2.gift_cards.length → i ≠ j →
      (db2.gift_cards.getD i dummyCard).number ≠
        (db2.gift_cards.getD j dummyCard).number := by
  have hu2 : uniqueNumbers db2 := by
    cases op with
    | createOp vlist =>
      simp only [applyOp] at h
      rcases hcr : GiftCard.create db vlist with e | r
      · rw [hcr] at h
        exact absurd h (by simp)
      · rw [hcr] at h
        rw [← Except.ok.inj h]
        exact (create_ok_spec db vlist r hcr).2.2
    | copyOp ids dflt =>
      simp only [applyOp] at h
      rcases hcp : GiftCard.copy db (db.gift_cards.filter (fun c => c.id ∈ ids)) dflt
        with e | r
      · rw [hcp] at h
        exact absurd h (by simp)
      · rw [hcp] at h
        rw [← Except.ok.inj h]
        unfold GiftCard.copy superCopy at hcp
        rcases hcr : GiftCard.create db
            ((db.gift_cards.filter (fun c => c.id ∈ ids)).map
              (fun c => valsFromCard
                { dflt.getD {} with
                    number := some none
                    sale_line := some none
                    state := some GiftCard.default_state
                    payment_transactions := some [] } c)) with e2 | r0
        · rw [hcr] at hcp
          exact absurd hcp (by simp)
        · rw [hcr] at hcp
          have hr := Except.ok.inj hcp
          have hgceq : r.1.gift_cards = r0.1.gift_cards := by
            rw [← hr]
            exact foldl_addTxns_gift_cards _ _ _ _
          exact uniqueNumbers_of_gift_cards_eq r0.1 r.1 hgceq.symm
            (create_ok_spec db _ r0 hcr).2.2
    | deleteOp ids =>
      simp only [applyOp, GiftCard.delete] at h
      rcases hchk : checkDeletable (db.gift_cards.filter (fun c => c.id ∈ ids))
        with e | u
      · rw [hchk] at h
        exact absurd h (by simp)
      · rw [hchk] at h
        rw [← Except.ok.inj h]
        unfold uniqueNumbers at hu ⊢
        exact hu.sublist ((List.filter_sublist db.gift_cards).map _)
    | activateOp ids =>
      simp only [applyOp] at h
      rw [← Except.ok.inj h]
      unfold uniqueNumbers at hu ⊢
      unfold GiftCard.activate
      rw [transition_numbers]
      exact hu
    | draftOp ids =>
      simp only [applyOp] at h
      rw [← Except.ok.inj h]
      unfold uniqueNumbers at hu ⊢
      unfold GiftCard.draftButton
      rw [transition_numbers]
      exact hu
    | cancelOp ids =>
      simp only [applyOp] at h
      rw [← Except.ok.inj h]
      unfold uniqueNumbers at hu ⊢
      unfold GiftCard.cancel
      rw [transition_numbers]
      exact hu
  exact ⟨rfl, hu2, fun i j hi hj hij =>
    nodup_map_getD_ne db2.gift_cards (fun c => c.number) hu2 i j dummyCard hi hj hij⟩

/-- C5 witness: cancelling the first card of the concrete database keeps
the numbers unique. -/
theorem C5_witness :
    applyOp cexProcessed (Op.cancelOp [0]) =
      Except.ok (GiftCard.cancel [0] cexProcessed) ∧
    uniqueNumbers (GiftCard.cancel [0] cexProcessed) :=
  ⟨rfl, (C5_unique_numbers cexProcessed (GiftCard.cancel [0] cexProcessed)
      (Op.cancelOp [0]) (by decide) rfl).2.1⟩

/-- C6.  `SaleLine.get_invoice_line` returns the base implementation's
result for a non-gift-card line or an invoice type other than
`out_invoice`; on a gift-card line of a customer invoice with no existing
invoice lines it raises the missing-liability-account user error exactly
when the configuration has no liability account, and otherwise returns one
invoice line on that account with `type`, `description`, `note`,
`unit_price` and `quantity` copied from the sale line (and `origin` set to
the line). -/
theorem C6_get_invoice_line (cfg : Configuration) (superResult : List InvoiceLine)
    (l : SaleLine) (invoice_type : String) :
    ((l.is_gift_card = false ∨ invoice_type ≠ "out_invoice") →
      SaleLine.get_invoice_line cfg superResult l invoice_type =
        Except.ok superResult) ∧
    (l.is_gift_card = true → invoice_type = "out_invoice" → l.invoice_lines = [] →
      (cfg.liability_account = none →
        SaleLine.get_invoice_line cfg superResult l invoice_type =
          Except.error "Liability Account is missing from Gift Card Configuration") ∧
      ∀ a : Nat, cfg.liability_account = some a →
        SaleLine.get_invoice_line cfg superResult l invoice_type =
          Except.ok [{ lineType := l.lineType
                       description := l.description
                       note := l.note
                       origin := some l.id
                       account := some a
                       unit_price := l.unit_price
                       quantity := l.quantity }]) := by
  constructor
  · intro hcase
    unfold SaleLine.get_invoice_line
    rw [if_pos ?_]
    rcases hcase with hgcf | hit
    · exact Or.inl (by rw [hgcf]; exact Bool.false_ne_true)
    · exact Or.inr hit
  · intro hgc hit hinv
    have hcond : ¬ (¬ l.is_gift_card = true ∨ invoice_type ≠ "out_invoice") := by
      push_neg
      exact ⟨hgc, hit⟩
    have hinv2 : ¬ (¬ l.invoice_lines.isEmpty = true) := by
      rw [hinv]
      simp
    constructor
    · intro hnoacct
      unfold SaleLine.get_invoice_line
      rw [if_neg hcond, if_neg hinv2, if_pos (by rw [hnoacct]; rfl)]
    · intro a hacct
      unfold SaleLine.get_invoice_line
      rw [if_neg hcond, if_neg hinv2, if_neg (by rw [hacct]; simp), hacct]

/-- C6 witness: a gift-card line invoiced as `out_invoice` against a
configuration holding liability account 77 yields exactly one invoice line
on that account with the line's values. -/
theorem C6_witness :
    cexLine2.is_gift_card = true ∧
    cexLine2.invoice_lines = [] ∧
    cexConfig.liability_account = some 77 ∧
    SaleLine.get_invoice_line cexConfig [] cexLine2 "out_invoice" =
      Except.ok [{ lineType := cexLine2.lineType
                   description := cexLine2.description
                   note := cexLine2.note
                   origin := some cexLine2.id
                   account := some 77
                   unit_price := cexLine2.unit_price
                   quantity := cexLine2.quantity }] :=
  ⟨rfl, rfl, rfl,
    ((C6_get_invoice_line cexConfig [] cexLine2 "out_invoice").2 rfl rfl rfl).2 77 rfl⟩

theorem checkDeletable_error_msg (L : List GiftCard) (e : String)
    (h : checkDeletable L = Except.error e) : e = "deletion_not_allowed" := by
  induction L with
  | nil => exact absurd h (by simp [checkDeletable])
  | cons c rest ih =>
    by_cases hc : c.state = GCState.active
    · simp only [checkDeletable, if_pos hc] at h
      exact (Except.error.inj h).symm
    · simp only [checkDeletable, if_neg hc] at h
      exact ih h

/-- C7.  `GiftCard.delete` on a non-empty selection raises the
`deletion_not_allowed` user error exactly when some selected card is in the
`active` state — and then, the operation aborting, nothing is deleted —
and when no selected card is active it removes exactly the selected
records, leaving the rest of the table unchanged. -/
theorem C7_delete_guard (db : DB) (ids : List Nat)
    (hne : db.gift_cards.filter (fun c => c.id ∈ ids) ≠ []) :
    (GiftCard.delete db ids = Except.error "deletion_not_allowed" ↔
      ∃ c ∈ db.gift_cards.filter (fun c => c.id ∈ ids), c.state = GCState.active) ∧
    ((∀ c ∈ db.gift_cards.filter (fun c => c.id ∈ ids), c.state ≠ GCState.active) →
      GiftCard.delete db ids =
        Except.ok { db with gift_cards := db.gift_cards.filter (fun c => ¬ c.id ∈ ids) }) := by
  constructor
  · constructor
    · intro hdel
      unfold GiftCard.delete at hdel
      rcases hchk : checkDeletable (db.gift_cards.filter (fun c => c.id ∈ ids))
        with e | u
      · have he : e = "deletion_not_allowed" := checkDeletable_error_msg _ e hchk
        rw [he] at hchk
        exact (checkDeletable_error_iff _).mp hchk
      · rw [hchk] at hdel
        exact absurd hdel (by simp)
    · intro hex
      unfold GiftCard.delete
      rw [(checkDeletable_error_iff _).mpr hex]
  · intro hnone
    unfold GiftCard.delete
    rw [checkDeletable_ok _ hnone]

/-- C7 witness: deleting the first (active) card of the concrete database
raises the `deletion_not_allowed` user error. -/
theorem C7_witness :
    cexProcessed.gift_cards.filter (fun c => c.id ∈ [0]) ≠ [] ∧
    GiftCard.delete cexProcessed [0] = Except.error "deletion_not_allowed" :=
  ⟨by decide, (C7_delete_guard cexProcessed [0] (by decide)).1.mpr (by decide)⟩

theorem foldl_addTxns_nil (d : CopyDefaults) (db0 : DB)
    (hpt : d.payment_transactions = some [])
    (ps : List (GiftCard × Nat)) (acc : DB) :
    ps.foldl (fun a p => addTxns a p.2 (copyTxnSpec d db0 p.1.id)) acc = acc := by
  induction ps generalizing acc with
  | nil => rfl
  | cons p rest ih =>
    simp only [List.foldl_cons]
    have hct : copyTxnSpec d db0 p.1.id = [] := by
      unfold copyTxnSpec
      rw [hpt]
    rw [hct]
    exact ih acc

theorem superCopy_ok_spec (db : DB) (cards : List GiftCard) (d : CopyDefaults)
    (hpt : d.payment_transactions = some [])
    (r : DB × List Nat) (h : superCopy db cards d = Except.ok r) :
    GiftCard.create db (cards.map (fun c => valsFromCard d c)) = Except.ok (r.1, r.2) := by
  unfold superCopy at h
  rcases hcr : GiftCard.create db (cards.map (fun c => valsFromCard d c)) with e | r0
  · rw [hcr] at h
    exact absurd h (by simp)
  · rw [hcr] at h
    have hr := Except.ok.inj h
    rw [foldl_addTxns_nil d db hpt _ r0.1] at hr
    rw [← hr]

theorem copyCreate_spec (db : DB) (cards : List GiftCard) (d : CopyDefaults)
    (hdnum : d.number = some none) (hdsl : d.sale_line = some none)
    (hdst : d.state = some GCState.draft)
    (hmem : ∀ c ∈ cards, c ∈ db.gift_cards)
    (hbound : ∀ c ∈ db.gift_cards, c.id < db.nextId)
    (htx : ∀ t ∈ db.transactions, ∀ g : Nat, t.gift_card = some g → g < db.nextId)
    (r : DB × List Nat)
    (hcr : GiftCard.create db (cards.map (fun c => valsFromCard d c)) = Except.ok r)
    (i : Nat) (hi : i < cards.length) :
    r.1.gift_cards.take db.gift_cards.length = db.gift_cards ∧
    (r.1.gift_cards.drop db.gift_cards.length).length = cards.length ∧
    r.1.transactions = db.transactions ∧
    (copiedCard r db i).state = GCState.draft ∧
    (copiedCard r db i).sale_line = none ∧
    r.1.transactions.filter
      (fun t => t.gift_card = some (copiedCard r db i).id) = [] ∧
    (copiedCard r db i).number ∉ db.gift_cards.map (fun c => c.number) ∧
    (copiedCard r db i).number ≠ (cards.getD i dummyCard).number ∧
    (copiedCard r db i).amount = (d.amount).getD (cards.getD i dummyCard).amount ∧
    (copiedCard r db i).message = (d.message).getD (cards.getD i dummyCard).message ∧
    (copiedCard r db i).currency = (d.currency).getD (cards.getD i dummyCard).currency := by
  obtain ⟨h1, h2, h3⟩ := create_ok_spec db _ r hcr
  have hgcs : r.1.gift_cards =
      db.gift_cards ++ createdCards db (cards.map (fun c => valsFromCard d c)) := by
    rw [h1]
  have htrans : r.1.transactions = db.transactions := by
    rw [h1]
  have hdrop : r.1.gift_cards.drop db.gift_cards.length =
      createdCards db (cards.map (fun c => valsFromCard d c)) := by
    rw [hgcs]
    exact List.drop_left _ _
  have hcclen : (createdCards db (cards.map (fun c => valsFromCard d c))).length =
      cards.length := by
    rw [createdCards_length, List.length_map]
  have hccA : copiedCard r db i =
      (createdCards db (cards.map (fun c => valsFromCard d c))).getD i dummyCard := by
    unfold copiedCard
    rw [hdrop]
  have hlen2 : i < (assignNumbers (cards.map (fun c => valsFromCard d c))
      db.nextSeq).1.length := by
    rw [assign_length, List.length_map]
    exact hi
  have hgetD : (createdCards db (cards.map (fun c => valsFromCard d c))).getD i
      dummyCard =
      mkCard (db.nextId + i) db.company_currency
        ((assignNumbers (cards.map (fun c => valsFromCard d c)) db.nextSeq).1.getD i
          emptyVals) := by
    unfold createdCards
    exact mkCards_getD _ _ _ i dummyCard emptyVals hlen2
  rw [assign_getD _ db.nextSeq i emptyVals (by rw [List.length_map]; exact hi)] at hgetD
  have hv : (cards.map (fun c => valsFromCard d c)).getD i emptyVals =
      valsFromCard d (cards.getD i dummyCard) :=
    getD_map_of_lt cards _ i emptyVals dummyCard hi
  rw [hv] at hgetD
  have hfalsy : numberFalsy (valsFromCard d (cards.getD i dummyCard)).number = true := by
    unfold valsFromCard
    rw [hdnum]
    rfl
  rw [if_pos hfalsy] at hgetD
  have hccB := hccA.trans hgetD
  have hncmem : copiedCard r db i ∈
      createdCards db (cards.map (fun c => valsFromCard d c)) := by
    rw [hccA]
    exact getD_mem_of_lt _ i _ (by rw [hcclen]; exact hi)
  have hu : ((db.gift_cards ++
      createdCards db (cards.map (fun c => valsFromCard d c))).map
        (fun c => c.number)).Nodup := by
    have h4 := h3
    unfold uniqueNumbers at h4
    rw [hgcs] at h4
    exact h4
  rw [List.map_append, List.nodup_append] at hu
  have hnotin : (copiedCard r db i).number ∉ db.gift_cards.map (fun c => c.number) := by
    intro hin
    exact hu.2.2 hin (List.mem_map_of_mem _ hncmem)
  have horig : (cards.getD i dummyCard).number ∈
      db.gift_cards.map (fun c => c.number) :=
    List.mem_map_of_mem _ (hmem _ (getD_mem_of_lt cards i dummyCard hi))
  have hid : (copiedCard r db i).id = db.nextId + i := by
    rw [hccB]
    rfl
  refine ⟨?_, ?_, htrans, ?_, ?_, ?_, hnotin, ?_, ?_, ?_, ?_⟩
  · rw [hgcs]
    exact List.take_left _ _
  · rw [hdrop, hcclen]
  · rw [hccB]
    simp [mkCard, valsFromCard, hdst]
  · rw [hccB]
    simp [mkCard, valsFromCard, hdsl]
  · rw [htrans]
    refine List.filter_eq_nil_iff.mpr ?_
    intro t ht
    rw [hid]
    rcases hgt : t.gift_card with _ | g
    · simp
    · have hg := htx t ht g hgt
      simp only [decide_eq_true_eq, Option.some.injEq]
      omega
  · intro heq
    exact hnotin (heq ▸ horig)
  · rw [hccB]
    simp [mkCard, valsFromCard]
  · rw [hccB]
    simp [mkCard, valsFromCard]
  · rw [hccB]
    simp [mkCard, valsFromCard]

/-- C8.  `GiftCard.copy` gives every copy a freshly assigned number (from
the sequence, distinct from every stored number and in particular from the
original's), an empty `sale_line`, no payment transactions, and the default
`draft` state — regardless of what the caller's `default` dictionary says
for those four keys — while `amount`, `message` and `currency` come from
the caller's defaults or else the original record; the original table
prefix and the transaction table are unchanged.  The embedding is pure, so
the caller's dictionary is never mutated (mirroring `default.copy()` in
the source). -/
theorem C8_copy_semantics (db : DB) (cards : List GiftCard)
    (default : Option CopyDefaults) (r : DB × List Nat)
    (hmem : ∀ c ∈ cards, c ∈ db.gift_cards)
    (hbound : ∀ c ∈ db.gift_cards, c.id < db.nextId)
    (htx : ∀ t ∈ db.transactions, ∀ g : Nat, t.gift_card = some g → g < db.nextId)
    (h : GiftCard.copy db cards default = Except.ok r) (i : Nat)
    (hi : i < cards.length) :
    r.1.gift_cards.take db.gift_cards.length = db.gift_cards ∧
    (r.1.gift_cards.drop db.gift_cards.length).length = cards.length ∧
    r.1.transactions = db.transactions ∧
    (copiedCard r db i).state = GCState.draft ∧
    (copiedCard r db i).sale_line = none ∧
    r.1.transactions.filter
      (fun t => t.gift_card = some (copiedCard r db i).id) = [] ∧
    (copiedCard r db i).number ∉ db.gift_cards.map (fun c => c.number) ∧
    (copiedCard r db i).number ≠ (cards.getD i dummyCard).number ∧
    (copiedCard r db i).amount =
      ((default.getD emptyDefaults).amount).getD (cards.getD i dummyCard).amount ∧
    (copiedCard r db i).message =
      ((default.getD emptyDefaults).message).getD (cards.getD i dummyCard).message ∧
    (copiedCard r db i).currency =
      ((default.getD emptyDefaults).currency).getD (cards.getD i dummyCard).currency := by
  unfold GiftCard.copy at h
  have hcr := superCopy_ok_spec db cards _ rfl r h
  exact copyCreate_spec db cards _ rfl rfl rfl hmem hbound htx (r.1, r.2) hcr i hi

/-- C8 witness: copying the first card of the concrete database with no
`default` dictionary yields a draft copy with the fresh number `"3"`, no
sale line and no transactions. -/
theorem C8_witness :
    GiftCard.copy cexProcessed [cexOrig] none = Except.ok cexCopyResult ∧
    (copiedCard cexCopyResult cexProcessed 0).state = GCState.draft ∧
    (copiedCard cexCopyResult cexProcessed 0).sale_line = none ∧
    (copiedCard cexCopyResult cexProcessed 0).number ≠ cexOrig.number := by
  have happ := C8_copy_semantics cexProcessed [cexOrig] none cexCopyResult
    (by decide) (by decide) (by decide) rfl 0 (by decide)
  exact ⟨rfl, happ.2.2.2.1, happ.2.2.2.2.1, happ.2.2.2.2.2.2.2.1⟩

/-- C9.  A gift card's state is always one of exactly the four declared
selection values `draft`, `active`, `canceled`, `used` (the selection list
declares exactly these four, in this order), the declared default is
`draft`, and every record created without an explicit state starts in
`draft`. -/
theorem C9_state_domain_and_default :
    (∀ s : GCState, s = GCState.draft ∨ s = GCState.active ∨
      s = GCState.canceled ∨ s = GCState.used) ∧
    stateSelection.map Prod.fst =
      [GCState.draft, GCState.active, GCState.canceled, GCState.used] ∧
    GiftCard.default_state = GCState.draft ∧
    ∀ (db : DB) (vlist : List GiftCardVals) (r : DB × List Nat),
      GiftCard.create db vlist = Except.ok r →
      (∀ v ∈ vlist, v.state = none) →
      ∀ c ∈ r.1.gift_cards, c ∈ db.gift_cards ∨ c.state = GCState.draft := by
  refine ⟨?_, rfl, rfl, ?_⟩
  · intro s
    cases s
    · exact Or.inl rfl
    · exact Or.inr (Or.inl rfl)
    · exact Or.inr (Or.inr (Or.inl rfl))
    · exact Or.inr (Or.inr (Or.inr rfl))
  · intro db vlist r hcr hnost c hc
    obtain ⟨h1, _, _⟩ := create_ok_spec db vlist r hcr
    rw [h1] at hc
    simp only [List.mem_append] at hc
    rcases hc with hold | hnew
    · exact Or.inl hold
    · obtain ⟨v, hv, hfields⟩ := createdCards_mem db vlist c hnew
      refine Or.inr ?_
      rw [hfields.2.2.2.1, hnost v hv]
      rfl

/-- C9 witness: creating from a dictionary without a state yields a card in
`draft`. -/
theorem C9_witness :
    GiftCard.create cexDB0 [emptyVals] = Except.ok cexCreatedSingle ∧
    ∀ c ∈ cexCreatedSingle.1.gift_cards,
      c ∈ cexDB0.gift_cards ∨ c.state = GCState.draft :=
  ⟨rfl, C9_state_domain_and_default.2.2.2 cexDB0 [emptyVals] cexCreatedSingle rfl
    (by decide)⟩

end GiftCardSpec
